import Mathlib

/-!
Verification of the gesture-recognition / input-fusion core of the
escape-room game (`src/input_manager.py`, `src/utils/filters.py`,
`src/utils/constants.py`).

Modelling conventions:
* Python floats become exact rationals (`ℚ`); the numeric constants of
  `constants.py` are the exact rationals they denote.
* The blocking detector loops become structural recursion over a finite
  list of "ticks"; each tick carries the raw inputs read by `update()`
  during that loop iteration together with the value of the monotonic
  clock during that iteration.  A detector returns `some true` /
  `some false` where Python returns `True` / `False`, and `none` when
  the finite tick list is exhausted with the loop still running.
* `timeout_s` is `Option ℚ`; Python's truthiness test `if timeout_s and …`
  is modelled by `timeoutHit`, which treats both `none` and `some 0` as
  "no timeout configured".
* A raised exception is modelled with `Except`.
-/

namespace InputCore

/-! ## Constants (src/utils/constants.py) -/

def ACCEL_EMA_ALPHA : ℚ := 3/10

def ACCEL_HPF_ALPHA : ℚ := 98/100

def MOTION_THRESHOLD : ℚ := 3/10

def TILT_THRESHOLD : ℚ := 6/5

def DOUBLE_TAP_WINDOW : ℚ := 2/5

/-! ## SignalFilter (src/utils/filters.py) -/

/-- `AccelerometerFilter.ema_filter`: exponential moving average. -/
def ema_filter (raw filtered : ℚ) (alpha : ℚ := ACCEL_EMA_ALPHA) : ℚ :=
  alpha * raw + (1 - alpha) * filtered

/-- `AccelerometerFilter.high_pass_filter`. -/
def high_pass_filter (raw prev_raw prev_filtered : ℚ) (alpha : ℚ := ACCEL_HPF_ALPHA) : ℚ :=
  alpha * (prev_filtered + raw - prev_raw)

/-- Iterating `ema_filter` with the constant raw input `v`, starting from
filtered value `f0`. -/
def emaIterate (v f0 alpha : ℚ) : ℕ → ℚ
  | 0 => f0
  | n + 1 => ema_filter v (emaIterate v f0 alpha n) alpha

/-- `AccelerometerFilter.calibrate`: reads the accelerometer `samples`
times (the readings are modelled as a function of the call number),
accumulates the per-axis sums exactly as the Python loop does, and
divides by `samples`. -/
def calibrate (accelerometer : ℕ → ℚ × ℚ × ℚ) (samples : ℕ := 100) : ℚ × ℚ × ℚ :=
  let sums := (List.range samples).foldl
    (fun s i =>
      let r := accelerometer i
      (s.1 + r.1, s.2.1 + r.2.1, s.2.2 + r.2.2))
    ((0 : ℚ), (0 : ℚ), (0 : ℚ))
  (sums.1 / samples, sums.2.1 / samples, sums.2.2 / samples)

/-! ### Lemmas about the EMA filter -/

theorem emaIterate_dist (v f0 alpha : ℚ) (h1 : alpha ≤ 1) (n : ℕ) :
    |emaIterate v f0 alpha n - v| = (1 - alpha) ^ n * |f0 - v| := by
  induction n with
  | zero => simp [emaIterate]
  | succ n ih =>
    have hnn : (0 : ℚ) ≤ 1 - alpha := by linarith
    have : emaIterate v f0 alpha (n + 1) - v = (1 - alpha) * (emaIterate v f0 alpha n - v) := by
      simp only [emaIterate, ema_filter]; ring
    rw [this, abs_mul, abs_of_nonneg hnn, ih, pow_succ]
    ring

theorem calibrate_sums (accelerometer : ℕ → ℚ × ℚ × ℚ) (n : ℕ) :
    (List.range n).foldl
      (fun s i =>
        let r := accelerometer i
        (s.1 + r.1, s.2.1 + r.2.1, s.2.2 + r.2.2))
      ((0 : ℚ), (0 : ℚ), (0 : ℚ)) =
      (∑ i ∈ Finset.range n, (accelerometer i).1,
       ∑ i ∈ Finset.range n, (accelerometer i).2.1,
       ∑ i ∈ Finset.range n, (accelerometer i).2.2) := by
  induction n with
  | zero => simp
  | succ n ih =>
    rw [List.range_succ, List.foldl_append, ih]
    simp [Finset.sum_range_succ]

/-! ### Claim theorems for the filter layer -/

/-- C8: `ema_filter raw filtered alpha` is the pure function
`alpha*raw + (1-alpha)*filtered`; `v` is a fixed point of feeding the
constant input `v`; the distance to `v` after `n` ticks is
`(1-alpha)^n` times the initial distance; and for every `alpha ∈ (0,1]`
the iteration comes (and stays) within any positive tolerance of `v`
after enough ticks. -/
theorem ema_constant_input_converges (v f0 alpha : ℚ)
    (h0 : 0 < alpha) (h1 : alpha ≤ 1) :
    (∀ raw filtered a : ℚ, ema_filter raw filtered a = a * raw + (1 - a) * filtered) ∧
    ema_filter v v alpha = v ∧
    (∀ n : ℕ, |emaIterate v f0 alpha n - v| = (1 - alpha) ^ n * |f0 - v|) ∧
    (∀ ε : ℚ, 0 < ε → ∃ N : ℕ, ∀ n : ℕ, N ≤ n → |emaIterate v f0 alpha n - v| ≤ ε) := by
  refine ⟨fun raw filtered a => rfl, by simp only [ema_filter]; ring, emaIterate_dist v f0 alpha h1, ?_⟩
  intro ε hε
  rcases eq_or_lt_of_le (abs_nonneg (f0 - v)) with hC | hC
  · exact ⟨0, fun n _ => by
      rw [emaIterate_dist v f0 alpha h1, ← hC, mul_zero]; exact le_of_lt hε⟩
  · have hr0 : (0 : ℚ) ≤ 1 - alpha := by linarith
    have hr1 : 1 - alpha < 1 := by linarith
    obtain ⟨N, hN⟩ := exists_pow_lt_of_lt_one (div_pos hε hC) hr1
    refine ⟨N, fun n hn => ?_⟩
    rw [emaIterate_dist v f0 alpha h1]
    have hmono : (1 - alpha) ^ n ≤ (1 - alpha) ^ N :=
      pow_le_pow_of_le_one hr0 (by linarith) hn
    have hlt : (1 - alpha) ^ n < ε / |f0 - v| := lt_of_le_of_lt hmono hN
    calc (1 - alpha) ^ n * |f0 - v| ≤ (ε / |f0 - v|) * |f0 - v| := by
          exact mul_le_mul_of_nonneg_right (le_of_lt hlt) (abs_nonneg _)
      _ = ε := by field_simp

/-- Witness for C8 at `v = 1`, `f0 = 0`, `alpha = 1/2`, tolerance `1/100`. -/
theorem ema_constant_input_converges_witness :
    ∃ N : ℕ, ∀ n : ℕ, N ≤ n → |emaIterate 1 0 (1/2) n - 1| ≤ 1/100 :=
  (ema_constant_input_converges 1 0 (1/2) (by norm_num) (by norm_num)).2.2.2
    (1/100) (by norm_num)

/-- C9: `calibrate` returns, for each axis, exactly the arithmetic mean
of the `samples` consecutive raw readings taken during the call (the
sum of the readings divided by `samples`); the `samples` parameter
defaults to `100`. -/
theorem calibrate_is_mean (accelerometer : ℕ → ℚ × ℚ × ℚ) (samples : ℕ) :
    calibrate accelerometer samples =
      ((∑ i ∈ Finset.range samples, (accelerometer i).1) / samples,
       (∑ i ∈ Finset.range samples, (accelerometer i).2.1) / samples,
       (∑ i ∈ Finset.range samples, (accelerometer i).2.2) / samples) ∧
    calibrate accelerometer = calibrate accelerometer 100 := by
  constructor
  · simp only [calibrate, calibrate_sums]
  · rfl

/-! ## InputManager state and ticks (src/input_manager.py) -/

/-- A triple of per-axis rational values (raw sample, filtered state or
baseline). -/
structure V3 where
  x : ℚ
  y : ℚ
  z : ℚ
deriving DecidableEq, Repr

/-- A subset of the axis names `{'x','y','z'}` (the normalized form of
`require_axes` / `axes` arguments). -/
structure AxisSet where
  x : Bool
  y : Bool
  z : Bool
deriving DecidableEq, Repr

/-- Python `detected >= required` on sets of axis names. -/
def AxisSet.subset (r d : AxisSet) : Bool :=
  (!r.x || d.x) && (!r.y || d.y) && (!r.z || d.z)

def AxisSet.nonempty (a : AxisSet) : Bool := a.x || a.y || a.z

/-- One iteration of a blocking accelerometer loop: the raw sample read
by `update()` and the monotonic-clock value during that iteration. -/
structure MoveTick where
  raw : V3
  t : ℚ
deriving DecidableEq, Repr

/-- The EMA update of the filtered triple performed by
`InputManager.update()`. -/
def updateFiltered (filt raw : V3) : V3 :=
  ⟨ema_filter raw.x filt.x, ema_filter raw.y filt.y, ema_filter raw.z filt.z⟩

/-- Python `if timeout_s and (time.monotonic() - start_time) > timeout_s`:
`none` and the falsy `0` skip the timeout check. -/
def timeoutHit (timeout_s : Option ℚ) (elapsed : ℚ) : Bool :=
  match timeout_s with
  | none => false
  | some ts => decide (ts ≠ 0) && decide (elapsed > ts)

/-! ## detect_movement -/

def CONFIRM_THRESHOLD : ℕ := 5

/-- The per-axis confirmation block of `detect_movement`: given this
tick's baseline-relative diff, the axis's counter and whether the axis
is already in `detected`, return the new counter and detected flag. -/
def motionAxisStep (diff : ℚ) (cnt : ℕ) (inDet : Bool) : ℕ × Bool :=
  if diff > MOTION_THRESHOLD then
    let c := cnt + 1
    if CONFIRM_THRESHOLD ≤ c ∧ diff > MOTION_THRESHOLD * (6/5) ∧ inDet = false then
      (c, true)
    else
      (c, inDet)
  else
    (0, inDet)

/-- The loop state of one `detect_movement` call: the shared filtered
triple, the per-axis confirmation counters and the `detected` set. -/
structure MoveState where
  filt : V3
  cx : ℕ
  cy : ℕ
  cz : ℕ
  det : AxisSet
deriving DecidableEq, Repr

/-- One loop iteration of `detect_movement` (state part): `update()`
followed by the confirmation-counter block (only in the
`required is not None` branch). -/
def moveStep (baseline : V3) (required : Option AxisSet) (s : MoveState) (k : MoveTick) :
    MoveState :=
  let filt := updateFiltered s.filt k.raw
  match required with
  | some req =>
    let px := if req.x then motionAxisStep |filt.x - baseline.x| s.cx s.det.x else (s.cx, s.det.x)
    let py := if req.y then motionAxisStep |filt.y - baseline.y| s.cy s.det.y else (s.cy, s.det.y)
    let pz := if req.z then motionAxisStep |filt.z - baseline.z| s.cz s.det.z else (s.cz, s.det.z)
    ⟨filt, px.1, py.1, pz.1, ⟨px.2, py.2, pz.2⟩⟩
  | none => ⟨filt, s.cx, s.cy, s.cz, s.det⟩

/-- The success test of one `detect_movement` iteration, evaluated on the
post-step state: `detected >= required` in the required-axes branch,
any single diff above `MOTION_THRESHOLD` in the legacy branch. -/
def moveSuccess (baseline : V3) (required : Option AxisSet) (s : MoveState) : Bool :=
  match required with
  | some req => AxisSet.subset req s.det
  | none =>
    decide (|s.filt.x - baseline.x| > MOTION_THRESHOLD) ||
    decide (|s.filt.y - baseline.y| > MOTION_THRESHOLD) ||
    decide (|s.filt.z - baseline.z| > MOTION_THRESHOLD)

/-- The `while True` loop of `detect_movement` over a finite tick list. -/
def detectMovementLoop (baseline : V3) (timeout_s : Option ℚ) (required : Option AxisSet)
    (start_time : ℚ) (s : MoveState) : List MoveTick → Option Bool
  | [] => none
  | k :: rest =>
    let s' := moveStep baseline required s k
    if moveSuccess baseline required s' then some true
    else if timeoutHit timeout_s (k.t - start_time) then some false
    else detectMovementLoop baseline timeout_s required start_time s' rest

/-- `InputManager.detect_movement`: counters and the detected set start
fresh; the filtered triple is the `InputManager`'s current one. -/
def detect_movement (baseline filt0 : V3) (timeout_s : Option ℚ)
    (require_axes : Option AxisSet) (start_time : ℚ) (trace : List MoveTick) : Option Bool :=
  detectMovementLoop baseline timeout_s require_axes start_time
    ⟨filt0, 0, 0, 0, ⟨false, false, false⟩⟩ trace

/-- All three components of `v` are within `MOTION_THRESHOLD` of the
baseline. -/
def inBand (baseline v : V3) : Prop :=
  |v.x - baseline.x| ≤ MOTION_THRESHOLD ∧ |v.y - baseline.y| ≤ MOTION_THRESHOLD ∧
    |v.z - baseline.z| ≤ MOTION_THRESHOLD

instance (baseline v : V3) : Decidable (inBand baseline v) := by
  unfold inBand; exact inferInstance

/-! ### Lemmas for C1 -/

theorem ema_band (b T r f : ℚ) (hr : |r - b| ≤ T) (hf : |f - b| ≤ T) :
    |ema_filter r f - b| ≤ T := by
  have hrw : ema_filter r f - b =
      ACCEL_EMA_ALPHA * (r - b) + (1 - ACCEL_EMA_ALPHA) * (f - b) := by
    unfold ema_filter; ring
  have h1 : |ACCEL_EMA_ALPHA * (r - b)| = ACCEL_EMA_ALPHA * |r - b| := by
    rw [abs_mul, abs_of_nonneg]; norm_num [ACCEL_EMA_ALPHA]
  have h2 : |(1 - ACCEL_EMA_ALPHA) * (f - b)| = (1 - ACCEL_EMA_ALPHA) * |f - b| := by
    rw [abs_mul, abs_of_nonneg]; norm_num [ACCEL_EMA_ALPHA]
  calc |ema_filter r f - b| ≤ |ACCEL_EMA_ALPHA * (r - b)| + |(1 - ACCEL_EMA_ALPHA) * (f - b)| := by
        rw [hrw]; exact abs_add _ _
    _ = ACCEL_EMA_ALPHA * |r - b| + (1 - ACCEL_EMA_ALPHA) * |f - b| := by rw [h1, h2]
    _ ≤ ACCEL_EMA_ALPHA * T + (1 - ACCEL_EMA_ALPHA) * T := by
        have := mul_le_mul_of_nonneg_left hr (by norm_num [ACCEL_EMA_ALPHA] : (0:ℚ) ≤ ACCEL_EMA_ALPHA)
        have := mul_le_mul_of_nonneg_left hf (by norm_num [ACCEL_EMA_ALPHA] : (0:ℚ) ≤ 1 - ACCEL_EMA_ALPHA)
        linarith
    _ = T := by ring

theorem updateFiltered_band (baseline filt raw : V3) (hf : inBand baseline filt)
    (hr : inBand baseline raw) : inBand baseline (updateFiltered filt raw) :=
  ⟨ema_band _ _ _ _ hr.1 hf.1, ema_band _ _ _ _ hr.2.1 hf.2.1, ema_band _ _ _ _ hr.2.2 hf.2.2⟩

theorem motionAxisStep_of_le (diff : ℚ) (cnt : ℕ) (inDet : Bool)
    (h : ¬ diff > MOTION_THRESHOLD) : motionAxisStep diff cnt inDet = (0, inDet) := by
  unfold motionAxisStep; rw [if_neg h]

theorem moveStep_quiet (baseline : V3) (required : Option AxisSet) (s : MoveState)
    (k : MoveTick) (hf : inBand baseline s.filt) (hr : inBand baseline k.raw) :
    inBand baseline (moveStep baseline required s k).filt ∧
      (moveStep baseline required s k).det = s.det := by
  have hband : inBand baseline (updateFiltered s.filt k.raw) := updateFiltered_band _ _ _ hf hr
  have hx : ¬ |(updateFiltered s.filt k.raw).x - baseline.x| > MOTION_THRESHOLD :=
    not_lt_of_le hband.1
  have hy : ¬ |(updateFiltered s.filt k.raw).y - baseline.y| > MOTION_THRESHOLD :=
    not_lt_of_le hband.2.1
  have hz : ¬ |(updateFiltered s.filt k.raw).z - baseline.z| > MOTION_THRESHOLD :=
    not_lt_of_le hband.2.2
  match required with
  | none => exact ⟨hband, rfl⟩
  | some req =>
    refine ⟨hband, ?_⟩
    simp only [moveStep, motionAxisStep_of_le _ _ _ hx, motionAxisStep_of_le _ _ _ hy,
      motionAxisStep_of_le _ _ _ hz]
    cases req.x <;> cases req.y <;> cases req.z <;> rfl

theorem moveSuccess_quiet (baseline : V3) (required : Option AxisSet) (s : MoveState)
    (hf : inBand baseline s.filt) (hdet : s.det = ⟨false, false, false⟩)
    (hreq : ∀ r, required = some r → r.nonempty = true) :
    moveSuccess baseline required s = false := by
  match required with
  | none =>
    simp only [moveSuccess]
    simp [not_lt_of_le hf.1, not_lt_of_le hf.2.1, not_lt_of_le hf.2.2]
  | some req =>
    have hne := hreq req rfl
    simp only [moveSuccess, hdet]
    obtain ⟨rx, ry, rz⟩ := req
    revert hne
    unfold AxisSet.subset AxisSet.nonempty
    cases rx <;> cases ry <;> cases rz <;> simp

theorem detectMovementLoop_quiet (baseline : V3) (timeout_s : Option ℚ)
    (required : Option AxisSet) (start_time : ℚ)
    (hreq : ∀ r, required = some r → r.nonempty = true) :
    ∀ (trace : List MoveTick) (s : MoveState), inBand baseline s.filt →
      s.det = ⟨false, false, false⟩ →
      (∀ k ∈ trace, inBand baseline k.raw) →
      detectMovementLoop baseline timeout_s required start_time s trace ≠ some true ∧
      ((∃ k ∈ trace, timeoutHit timeout_s (k.t - start_time) = true) →
        detectMovementLoop baseline timeout_s required start_time s trace = some false)
  | [], s, _, _, _ => by
    constructor
    · simp [detectMovementLoop]
    · rintro ⟨k, hk, -⟩; exact absurd hk (List.not_mem_nil k)
  | k :: rest, s, hf, hdet, htrace => by
    have hkr : inBand baseline k.raw := htrace k (List.mem_cons_self k rest)
    obtain ⟨hband, hdet'⟩ := moveStep_quiet baseline required s k hf hkr
    have hsucc : moveSuccess baseline required (moveStep baseline required s k) = false :=
      moveSuccess_quiet baseline required _ hband (hdet'.trans hdet) hreq
    have ih := detectMovementLoop_quiet baseline timeout_s required start_time hreq rest
      (moveStep baseline required s k) hband (hdet'.trans hdet)
      (fun j hj => htrace j (List.mem_cons_of_mem k hj))
    constructor
    · intro hcontra
      rw [detectMovementLoop, hsucc] at hcontra
      simp only [Bool.false_eq_true, if_false] at hcontra
      by_cases hto : timeoutHit timeout_s (k.t - start_time) = true
      · rw [if_pos hto] at hcontra; exact Option.some.inj hcontra |> Bool.false_ne_true
      · rw [if_neg hto] at hcontra; exact ih.1 hcontra
    · rintro ⟨j, hj, hjto⟩
      rw [detectMovementLoop, hsucc]
      simp only [Bool.false_eq_true, if_false]
      by_cases hto : timeoutHit timeout_s (k.t - start_time) = true
      · rw [if_pos hto]
      · rw [if_neg hto]
        rcases List.mem_cons.mp hj with rfl | hjr
        · exact absurd hjto hto
        · exact ih.2 ⟨j, hjr, hjto⟩

/-! ### Lemmas for C2: the confirmation-counter protocol -/

/-- The per-axis counter/detected pair of `detect_movement`, folded over
a list of baseline-relative diffs. -/
def axisRun (l : List ℚ) (c0 : ℕ) (d0 : Bool) : ℕ × Bool :=
  l.foldl (fun s d => motionAxisStep d s.1 s.2) (c0, d0)

/-- The successive x-axis baseline-relative diffs produced by a run of
the `detect_movement` loop starting from filtered state `filt0`. -/
def xDiffs (baseline filt0 : V3) : List MoveTick → List ℚ
  | [] => []
  | k :: rest =>
    |(updateFiltered filt0 k.raw).x - baseline.x| ::
      xDiffs baseline (updateFiltered filt0 k.raw) rest

/-- y-axis analogue of `xDiffs`. -/
def yDiffs (baseline filt0 : V3) : List MoveTick → List ℚ
  | [] => []
  | k :: rest =>
    |(updateFiltered filt0 k.raw).y - baseline.y| ::
      yDiffs baseline (updateFiltered filt0 k.raw) rest

/-- z-axis analogue of `xDiffs`. -/
def zDiffs (baseline filt0 : V3) : List MoveTick → List ℚ
  | [] => []
  | k :: rest =>
    |(updateFiltered filt0 k.raw).z - baseline.z| ::
      zDiffs baseline (updateFiltered filt0 k.raw) rest

theorem motionAxisStep_count_of_gt (diff : ℚ) (cnt : ℕ) (inDet : Bool)
    (h : diff > MOTION_THRESHOLD) : (motionAxisStep diff cnt inDet).1 = cnt + 1 := by
  simp only [motionAxisStep, if_pos h]
  split <;> rfl

theorem motionAxisStep_det_eq (diff : ℚ) (cnt : ℕ) (inDet : Bool) :
    (motionAxisStep diff cnt inDet).2 =
      (inDet || (decide (CONFIRM_THRESHOLD ≤ (motionAxisStep diff cnt inDet).1) &&
        decide (diff > MOTION_THRESHOLD * (6/5)))) := by
  by_cases h : diff > MOTION_THRESHOLD
  · rw [motionAxisStep_count_of_gt _ _ _ h]
    simp only [motionAxisStep, if_pos h]
    by_cases hA : CONFIRM_THRESHOLD ≤ cnt + 1 <;>
      by_cases hB : MOTION_THRESHOLD * (6/5) < diff <;>
        cases inDet <;> simp [hA, hB]
  · have h2 : ¬ diff > MOTION_THRESHOLD * (6/5) := by
      intro hc
      apply h
      have hpos : MOTION_THRESHOLD < MOTION_THRESHOLD * (6/5) := by norm_num [MOTION_THRESHOLD]
      linarith
    rw [motionAxisStep_of_le _ _ _ h]
    simp [h2]

theorem motionAxisStep_det_mono (diff : ℚ) (cnt : ℕ) :
    (motionAxisStep diff cnt true).2 = true := by
  unfold motionAxisStep
  split_ifs <;> simp_all

theorem moveStep_filt (baseline : V3) (required : Option AxisSet) (s : MoveState)
    (k : MoveTick) : (moveStep baseline required s k).filt = updateFiltered s.filt k.raw := by
  cases required <;> rfl

theorem moveStep_det_mono (baseline : V3) (required : Option AxisSet) (s : MoveState)
    (k : MoveTick) : AxisSet.subset s.det (moveStep baseline required s k).det = true := by
  obtain ⟨filt, cx, cy, cz, det⟩ := s
  obtain ⟨dx, dy, dz⟩ := det
  cases required with
  | none =>
    simp only [moveStep, AxisSet.subset]
    cases dx <;> cases dy <;> cases dz <;> rfl
  | some req =>
    obtain ⟨qx, qy, qz⟩ := req
    simp only [moveStep, AxisSet.subset]
    cases qx <;> cases qy <;> cases qz <;> cases dx <;> cases dy <;> cases dz <;>
      simp [motionAxisStep_det_mono]

theorem moveStep_cx (baseline : V3) (req : AxisSet) (s : MoveState) (k : MoveTick)
    (hx : req.x = true) :
    (moveStep baseline (some req) s k).cx =
      (motionAxisStep |(updateFiltered s.filt k.raw).x - baseline.x| s.cx s.det.x).1 := by
  simp [moveStep, hx]

theorem moveStep_detx (baseline : V3) (req : AxisSet) (s : MoveState) (k : MoveTick)
    (hx : req.x = true) :
    (moveStep baseline (some req) s k).det.x =
      (motionAxisStep |(updateFiltered s.filt k.raw).x - baseline.x| s.cx s.det.x).2 := by
  simp [moveStep, hx]

theorem moveStep_cy (baseline : V3) (req : AxisSet) (s : MoveState) (k : MoveTick)
    (hy : req.y = true) :
    (moveStep baseline (some req) s k).cy =
      (motionAxisStep |(updateFiltered s.filt k.raw).y - baseline.y| s.cy s.det.y).1 := by
  simp [moveStep, hy]

theorem moveStep_dety (baseline : V3) (req : AxisSet) (s : MoveState) (k : MoveTick)
    (hy : req.y = true) :
    (moveStep baseline (some req) s k).det.y =
      (motionAxisStep |(updateFiltered s.filt k.raw).y - baseline.y| s.cy s.det.y).2 := by
  simp [moveStep, hy]

theorem moveStep_cz (baseline : V3) (req : AxisSet) (s : MoveState) (k : MoveTick)
    (hz : req.z = true) :
    (moveStep baseline (some req) s k).cz =
      (motionAxisStep |(updateFiltered s.filt k.raw).z - baseline.z| s.cz s.det.z).1 := by
  simp [moveStep, hz]

theorem moveStep_detz (baseline : V3) (req : AxisSet) (s : MoveState) (k : MoveTick)
    (hz : req.z = true) :
    (moveStep baseline (some req) s k).det.z =
      (motionAxisStep |(updateFiltered s.filt k.raw).z - baseline.z| s.cz s.det.z).2 := by
  simp [moveStep, hz]

theorem axisRun_count_streak (l : List ℚ) (d0 : Bool) :
    (axisRun l 0 d0).1 =
      (l.reverse.takeWhile (fun d => decide (d > MOTION_THRESHOLD))).length := by
  induction l using List.reverseRecOn with
  | nil => rfl
  | append_singleton l d ih =>
    simp only [axisRun, List.foldl_append, List.foldl_cons, List.foldl_nil] at ih ⊢
    rw [List.reverse_append]
    simp only [List.reverse_singleton, List.singleton_append, List.takeWhile_cons]
    by_cases h : d > MOTION_THRESHOLD
    · rw [motionAxisStep_count_of_gt _ _ _ h]
      simp [h, ih]
    · rw [motionAxisStep_of_le _ _ _ h]
      simp [h]

theorem moveFold_x_axisRun (baseline : V3) (req : AxisSet) (hx : req.x = true) :
    ∀ (trace : List MoveTick) (s : MoveState),
      ((trace.foldl (moveStep baseline (some req)) s).cx,
        (trace.foldl (moveStep baseline (some req)) s).det.x) =
        axisRun (xDiffs baseline s.filt trace) s.cx s.det.x
  | [], s => rfl
  | k :: rest, s => by
    rw [List.foldl_cons, xDiffs]
    have hcons : axisRun (|(updateFiltered s.filt k.raw).x - baseline.x| ::
        xDiffs baseline (updateFiltered s.filt k.raw) rest) s.cx s.det.x =
        axisRun (xDiffs baseline (updateFiltered s.filt k.raw) rest)
          (motionAxisStep |(updateFiltered s.filt k.raw).x - baseline.x| s.cx s.det.x).1
          (motionAxisStep |(updateFiltered s.filt k.raw).x - baseline.x| s.cx s.det.x).2 := rfl
    rw [hcons]
    rw [moveFold_x_axisRun baseline req hx rest (moveStep baseline (some req) s k)]
    rw [moveStep_filt, moveStep_cx baseline req s k hx, moveStep_detx baseline req s k hx]

theorem moveFold_y_axisRun (baseline : V3) (req : AxisSet) (hy : req.y = true) :
    ∀ (trace : List MoveTick) (s : MoveState),
      ((trace.foldl (moveStep baseline (some req)) s).cy,
        (trace.foldl (moveStep baseline (some req)) s).det.y) =
        axisRun (yDiffs baseline s.filt trace) s.cy s.det.y
  | [], s => rfl
  | k :: rest, s => by
    rw [List.foldl_cons, yDiffs]
    have hcons : axisRun (|(updateFiltered s.filt k.raw).y - baseline.y| ::
        yDiffs baseline (updateFiltered s.filt k.raw) rest) s.cy s.det.y =
        axisRun (yDiffs baseline (updateFiltered s.filt k.raw) rest)
          (motionAxisStep |(updateFiltered s.filt k.raw).y - baseline.y| s.cy s.det.y).1
          (motionAxisStep |(updateFiltered s.filt k.raw).y - baseline.y| s.cy s.det.y).2 := rfl
    rw [hcons]
    rw [moveFold_y_axisRun baseline req hy rest (moveStep baseline (some req) s k)]
    rw [moveStep_filt, moveStep_cy baseline req s k hy, moveStep_dety baseline req s k hy]

theorem moveFold_z_axisRun (baseline : V3) (req : AxisSet) (hz : req.z = true) :
    ∀ (trace : List MoveTick) (s : MoveState),
      ((trace.foldl (moveStep baseline (some req)) s).cz,
        (trace.foldl (moveStep baseline (some req)) s).det.z) =
        axisRun (zDiffs baseline s.filt trace) s.cz s.det.z
  | [], s => rfl
  | k :: rest, s => by
    rw [List.foldl_cons, zDiffs]
    have hcons : axisRun (|(updateFiltered s.filt k.raw).z - baseline.z| ::
        zDiffs baseline (updateFiltered s.filt k.raw) rest) s.cz s.det.z =
        axisRun (zDiffs baseline (updateFiltered s.filt k.raw) rest)
          (motionAxisStep |(updateFiltered s.filt k.raw).z - baseline.z| s.cz s.det.z).1
          (motionAxisStep |(updateFiltered s.filt k.raw).z - baseline.z| s.cz s.det.z).2 := rfl
    rw [hcons]
    rw [moveFold_z_axisRun baseline req hz rest (moveStep baseline (some req) s k)]
    rw [moveStep_filt, moveStep_cz baseline req s k hz, moveStep_detz baseline req s k hz]

theorem detectMovementLoop_true_iff (baseline : V3) (req : AxisSet) (start_time : ℚ) :
    ∀ (trace : List MoveTick) (s : MoveState),
      detectMovementLoop baseline none (some req) start_time s trace = some true ↔
      ∃ n, n < trace.length ∧
        AxisSet.subset req
          (((trace.take (n+1)).foldl (moveStep baseline (some req)) s).det) = true
  | [], s => by simp [detectMovementLoop]
  | k :: rest, s => by
    rw [detectMovementLoop]
    by_cases h : moveSuccess baseline (some req) (moveStep baseline (some req) s k) = true
    · rw [if_pos h]
      constructor
      · intro
        exact ⟨0, by simp, by simpa [moveSuccess, List.take_succ_cons] using h⟩
      · intro
        rfl
    · rw [if_neg h]
      have hto : timeoutHit none (k.t - start_time) = false := rfl
      rw [hto]
      simp only [Bool.false_eq_true, if_false]
      rw [detectMovementLoop_true_iff baseline req start_time rest
        (moveStep baseline (some req) s k)]
      constructor
      · rintro ⟨n, hn, hsub⟩
        exact ⟨n + 1, by simpa using Nat.succ_lt_succ hn,
          by simpa [List.take_succ_cons, List.foldl_cons] using hsub⟩
      · rintro ⟨n, hn, hsub⟩
        cases n with
        | zero =>
          exfalso
          apply h
          simpa [moveSuccess, List.take_succ_cons] using hsub
        | succ m =>
          exact ⟨m, by simpa using Nat.lt_of_succ_lt_succ hn,
            by simpa [List.take_succ_cons, List.foldl_cons] using hsub⟩

/-! ### Claim theorem C2 -/

/-- C2: in the required-axes branch of `detect_movement`, each required
axis's counter increments on every tick whose diff exceeds
`MOTION_THRESHOLD` and resets to `0` otherwise (so the counter equals
the length of the trailing run of super-threshold diffs); the axis is
marked confirmed exactly when the updated counter has reached
`CONFIRM_THRESHOLD = 5` and the same tick's diff exceeds
`MOTION_THRESHOLD * 1.2`; the detected set only grows; and (absent a
timeout) the call returns `True` exactly when the detected set contains
the required set after some tick. -/
theorem detect_movement_confirmation_protocol :
    (∀ (diff : ℚ) (cnt : ℕ) (inDet : Bool), diff > MOTION_THRESHOLD →
      (motionAxisStep diff cnt inDet).1 = cnt + 1) ∧
    (∀ (diff : ℚ) (cnt : ℕ) (inDet : Bool), ¬ diff > MOTION_THRESHOLD →
      (motionAxisStep diff cnt inDet).1 = 0) ∧
    (∀ (diff : ℚ) (cnt : ℕ) (inDet : Bool),
      (motionAxisStep diff cnt inDet).2 =
        (inDet || (decide (CONFIRM_THRESHOLD ≤ (motionAxisStep diff cnt inDet).1) &&
          decide (diff > MOTION_THRESHOLD * (6/5))))) ∧
    (∀ (l : List ℚ) (d0 : Bool), (axisRun l 0 d0).1 =
      (l.reverse.takeWhile (fun d => decide (d > MOTION_THRESHOLD))).length) ∧
    (∀ (baseline : V3) (required : Option AxisSet) (s : MoveState) (k : MoveTick),
      AxisSet.subset s.det (moveStep baseline required s k).det = true) ∧
    (∀ (baseline : V3) (req : AxisSet) (trace : List MoveTick) (s : MoveState),
      (req.x = true →
        ((trace.foldl (moveStep baseline (some req)) s).cx,
          (trace.foldl (moveStep baseline (some req)) s).det.x) =
          axisRun (xDiffs baseline s.filt trace) s.cx s.det.x) ∧
      (req.y = true →
        ((trace.foldl (moveStep baseline (some req)) s).cy,
          (trace.foldl (moveStep baseline (some req)) s).det.y) =
          axisRun (yDiffs baseline s.filt trace) s.cy s.det.y) ∧
      (req.z = true →
        ((trace.foldl (moveStep baseline (some req)) s).cz,
          (trace.foldl (moveStep baseline (some req)) s).det.z) =
          axisRun (zDiffs baseline s.filt trace) s.cz s.det.z)) ∧
    (∀ (baseline filt0 : V3) (req : AxisSet) (start_time : ℚ) (trace : List MoveTick),
      detect_movement baseline filt0 none (some req) start_time trace = some true ↔
      ∃ n, n < trace.length ∧
        AxisSet.subset req
          (((trace.take (n+1)).foldl (moveStep baseline (some req))
            ⟨filt0, 0, 0, 0, ⟨false, false, false⟩⟩).det) = true) := by
  refine ⟨motionAxisStep_count_of_gt, ?_, motionAxisStep_det_eq, axisRun_count_streak,
    moveStep_det_mono, ?_, ?_⟩
  · intro diff cnt inDet h
    rw [motionAxisStep_of_le _ _ _ h]
  · intro baseline req trace s
    exact ⟨fun hx => moveFold_x_axisRun baseline req hx trace s,
      fun hy => moveFold_y_axisRun baseline req hy trace s,
      fun hz => moveFold_z_axisRun baseline req hz trace s⟩
  · intro baseline filt0 req start_time trace
    exact detectMovementLoop_true_iff baseline req start_time trace _

/-- Witness for C2: the counter rules at concrete diffs (a
super-threshold diff increments, a sub-threshold diff resets). -/
theorem detect_movement_confirmation_protocol_witness :
    (motionAxisStep 1 3 false).1 = 3 + 1 ∧ (motionAxisStep (1/10) 3 false).1 = 0 := by
  exact ⟨detect_movement_confirmation_protocol.1 1 3 false
      (by norm_num [MOTION_THRESHOLD]),
    detect_movement_confirmation_protocol.2.1 (1/10) 3 false
      (by norm_num [MOTION_THRESHOLD])⟩

/-! ### Claim theorem C1 -/

/-- C1: if every raw sample of the run and the prior filtered state stay
within `MOTION_THRESHOLD` of the baseline on every component, then
`detect_movement` (with a nonempty `require_axes` or without one) never
returns `True`; and with a finite (truthy) timeout whose window the
trace outlives, it returns `False`. -/
theorem detect_movement_quiet_never_true (baseline filt0 : V3) (timeout_s : Option ℚ)
    (require_axes : Option AxisSet) (start_time : ℚ) (trace : List MoveTick)
    (hreq : ∀ r, require_axes = some r → r.nonempty = true)
    (hf0 : inBand baseline filt0)
    (htrace : ∀ k ∈ trace, inBand baseline k.raw) :
    detect_movement baseline filt0 timeout_s require_axes start_time trace ≠ some true ∧
    (∀ ts : ℚ, timeout_s = some ts → ts ≠ 0 → (∃ k ∈ trace, k.t - start_time > ts) →
      detect_movement baseline filt0 timeout_s require_axes start_time trace = some false) := by
  have base := detectMovementLoop_quiet baseline timeout_s require_axes start_time hreq trace
    ⟨filt0, 0, 0, 0, ⟨false, false, false⟩⟩ hf0 rfl htrace
  refine ⟨base.1, ?_⟩
  rintro ts rfl hts ⟨k, hk, hkt⟩
  exact base.2 ⟨k, hk, by simp [timeoutHit, hts, hkt]⟩

/-- Witness for C1: a stationary trace with a 1-second timeout and a tick
past the window yields `False` (and not `True`). -/
theorem detect_movement_quiet_never_true_witness :
    detect_movement ⟨0, 0, 0⟩ ⟨0, 0, 0⟩ (some 1) (some ⟨true, true, false⟩) 0
        [⟨⟨0, 0, 0⟩, 2⟩] = some false ∧
      detect_movement ⟨0, 0, 0⟩ ⟨0, 0, 0⟩ (some 1) (some ⟨true, true, false⟩) 0
        [⟨⟨0, 0, 0⟩, 2⟩] ≠ some true := by
  have h := detect_movement_quiet_never_true ⟨0, 0, 0⟩ ⟨0, 0, 0⟩ (some 1)
    (some ⟨true, true, false⟩) 0 [⟨⟨0, 0, 0⟩, 2⟩]
    (by intro r hr; cases Option.some.inj hr; rfl)
    (by norm_num [inBand, MOTION_THRESHOLD])
    (by
      intro k hk
      rcases List.mem_singleton.mp hk with rfl
      norm_num [inBand, MOTION_THRESHOLD])
  exact ⟨h.2 1 rfl (by norm_num) ⟨⟨⟨0, 0, 0⟩, 2⟩, List.mem_singleton.mpr rfl, by norm_num⟩, h.1⟩

/-! ## detect_all_six_directions -/

/-- The set of sign-tagged direction tokens
`{+X, -X, +Y, -Y, +Z, -Z}` accumulated by one
`detect_all_six_directions` call. -/
structure DirSet where
  pX : Bool
  nX : Bool
  pY : Bool
  nY : Bool
  pZ : Bool
  nZ : Bool
deriving DecidableEq, Repr

/-- `len(self.directions_detected)`. -/
def DirSet.card (d : DirSet) : ℕ :=
  (if d.pX then 1 else 0) + (if d.nX then 1 else 0) + (if d.pY then 1 else 0) +
    (if d.nY then 1 else 0) + (if d.pZ then 1 else 0) + (if d.nZ then 1 else 0)

/-- Token-set inclusion. -/
def DirSet.subset (a b : DirSet) : Bool :=
  (!a.pX || b.pX) && (!a.nX || b.nX) && (!a.pY || b.pY) && (!a.nY || b.nY) &&
    (!a.pZ || b.pZ) && (!a.nZ || b.nZ)

/-- `len(axes_set)`. -/
def AxisSet.count (a : AxisSet) : ℕ :=
  (if a.x then 1 else 0) + (if a.y then 1 else 0) + (if a.z then 1 else 0)

/-- Loop state of one `detect_all_six_directions` call. -/
structure SixState where
  filt : V3
  dirs : DirSet
deriving DecidableEq, Repr

/-- One loop iteration (state part) of `detect_all_six_directions`:
`update()`, then for each requested axis test both polarities — the raw
filtered value against `±TILT_THRESHOLD` for X and Y, the
baseline-relative diff for Z — adding the sign-tagged token on a
crossing. -/
def sixStep (baseline : V3) (axes : AxisSet) (s : SixState) (k : MoveTick) : SixState :=
  let filt := updateFiltered s.filt k.raw
  let d0 := s.dirs
  let d1 := if axes.x then
      { d0 with pX := d0.pX || decide (filt.x > TILT_THRESHOLD),
                nX := d0.nX || decide (filt.x < -TILT_THRESHOLD) }
    else d0
  let d2 := if axes.y then
      { d1 with pY := d1.pY || decide (filt.y > TILT_THRESHOLD),
                nY := d1.nY || decide (filt.y < -TILT_THRESHOLD) }
    else d1
  let d3 := if axes.z then
      { d2 with pZ := d2.pZ || decide (filt.z - baseline.z > TILT_THRESHOLD),
                nZ := d2.nZ || decide (filt.z - baseline.z < -TILT_THRESHOLD) }
    else d2
  ⟨filt, d3⟩

/-- The `while True` loop of `detect_all_six_directions`. -/
def detectAllSixLoop (baseline : V3) (timeout_s : Option ℚ) (axes : AxisSet)
    (required_count : ℕ) (start_time : ℚ) (s : SixState) : List MoveTick → Option Bool
  | [] => none
  | k :: rest =>
    let s' := sixStep baseline axes s k
    if required_count ≤ s'.dirs.card then some true
    else if timeoutHit timeout_s (k.t - start_time) then some false
    else detectAllSixLoop baseline timeout_s axes required_count start_time s' rest

/-- `InputManager.detect_all_six_directions`: the detected set starts
empty and `required_count = len(axes_set) * 2`. -/
def detect_all_six_directions (baseline filt0 : V3) (timeout_s : Option ℚ)
    (start_time : ℚ) (axes : AxisSet) (trace : List MoveTick) : Option Bool :=
  detectAllSixLoop baseline timeout_s axes (axes.count * 2) start_time
    ⟨filt0, ⟨false, false, false, false, false, false⟩⟩ trace

/-! ### Lemmas for C3 -/

theorem sixStep_dirs (baseline : V3) (axes : AxisSet) (s : SixState) (k : MoveTick) :
    (sixStep baseline axes s k).dirs =
      ⟨s.dirs.pX || (axes.x && decide ((updateFiltered s.filt k.raw).x > TILT_THRESHOLD)),
       s.dirs.nX || (axes.x && decide ((updateFiltered s.filt k.raw).x < -TILT_THRESHOLD)),
       s.dirs.pY || (axes.y && decide ((updateFiltered s.filt k.raw).y > TILT_THRESHOLD)),
       s.dirs.nY || (axes.y && decide ((updateFiltered s.filt k.raw).y < -TILT_THRESHOLD)),
       s.dirs.pZ || (axes.z &&
         decide ((updateFiltered s.filt k.raw).z - baseline.z > TILT_THRESHOLD)),
       s.dirs.nZ || (axes.z &&
         decide ((updateFiltered s.filt k.raw).z - baseline.z < -TILT_THRESHOLD))⟩ := by
  obtain ⟨ax, ay, az⟩ := axes
  cases ax <;> cases ay <;> cases az <;> simp [sixStep]

theorem sixStep_filt (baseline : V3) (axes : AxisSet) (s : SixState) (k : MoveTick) :
    (sixStep baseline axes s k).filt = updateFiltered s.filt k.raw := by
  unfold sixStep
  cases axes.x <;> cases axes.y <;> cases axes.z <;> rfl

theorem sixStep_mono (baseline : V3) (axes : AxisSet) (s : SixState) (k : MoveTick) :
    DirSet.subset s.dirs (sixStep baseline axes s k).dirs = true := by
  rw [sixStep_dirs]
  obtain ⟨fl, dirs⟩ := s
  obtain ⟨a, b, c, d, e, f⟩ := dirs
  unfold DirSet.subset
  cases a <;> cases b <;> cases c <;> cases d <;> cases e <;> cases f <;> simp

theorem detectAllSixLoop_true_iff (baseline : V3) (axes : AxisSet)
    (required_count : ℕ) (start_time : ℚ) :
    ∀ (trace : List MoveTick) (s : SixState),
      detectAllSixLoop baseline none axes required_count start_time s trace = some true ↔
      ∃ n, n < trace.length ∧
        required_count ≤ ((trace.take (n+1)).foldl (sixStep baseline axes) s).dirs.card
  | [], s => by simp [detectAllSixLoop]
  | k :: rest, s => by
    rw [detectAllSixLoop]
    by_cases h : required_count ≤ (sixStep baseline axes s k).dirs.card
    · rw [if_pos h]
      constructor
      · intro
        exact ⟨0, by simp, by simpa [List.take_succ_cons] using h⟩
      · intro
        rfl
    · rw [if_neg h]
      have hto : timeoutHit none (k.t - start_time) = false := rfl
      rw [hto]
      simp only [Bool.false_eq_true, if_false]
      rw [detectAllSixLoop_true_iff baseline axes required_count start_time rest
        (sixStep baseline axes s k)]
      constructor
      · rintro ⟨n, hn, hcard⟩
        exact ⟨n + 1, by simpa using Nat.succ_lt_succ hn,
          by simpa [List.take_succ_cons, List.foldl_cons] using hcard⟩
      · rintro ⟨n, hn, hcard⟩
        cases n with
        | zero =>
          exfalso
          apply h
          simpa [List.take_succ_cons] using hcard
        | succ m =>
          exact ⟨m, by simpa using Nat.lt_of_succ_lt_succ hn,
            by simpa [List.take_succ_cons, List.foldl_cons] using hcard⟩

/-! ### Claim theorem C3 -/

/-- C3: each tick of `detect_all_six_directions` tests both polarities
of every requested axis against `TILT_THRESHOLD` — the raw filtered
value for X and Y, the baseline-relative diff for Z — adds the
sign-tagged token on a crossing and never removes tokens; absent a
timeout the call returns `True` exactly when the number of distinct
tokens reaches `2 * len(axes)`; and on a concrete `axes=['x','y']` run
that accumulates only three of the four tokens before its 5-second
timeout, the call returns `False`. -/
theorem detect_all_six_directions_tokens :
    (∀ (baseline : V3) (axes : AxisSet) (s : SixState) (k : MoveTick),
      (sixStep baseline axes s k).dirs =
        ⟨s.dirs.pX || (axes.x && decide ((updateFiltered s.filt k.raw).x > TILT_THRESHOLD)),
         s.dirs.nX || (axes.x && decide ((updateFiltered s.filt k.raw).x < -TILT_THRESHOLD)),
         s.dirs.pY || (axes.y && decide ((updateFiltered s.filt k.raw).y > TILT_THRESHOLD)),
         s.dirs.nY || (axes.y && decide ((updateFiltered s.filt k.raw).y < -TILT_THRESHOLD)),
         s.dirs.pZ || (axes.z &&
           decide ((updateFiltered s.filt k.raw).z - baseline.z > TILT_THRESHOLD)),
         s.dirs.nZ || (axes.z &&
           decide ((updateFiltered s.filt k.raw).z - baseline.z < -TILT_THRESHOLD))⟩) ∧
    (∀ (baseline : V3) (axes : AxisSet) (s : SixState) (k : MoveTick),
      DirSet.subset s.dirs (sixStep baseline axes s k).dirs = true) ∧
    (∀ (baseline filt0 : V3) (start_time : ℚ) (axes : AxisSet) (trace : List MoveTick),
      detect_all_six_directions baseline filt0 none start_time axes trace = some true ↔
      ∃ n, n < trace.length ∧
        axes.count * 2 ≤ ((trace.take (n+1)).foldl (sixStep baseline axes)
          ⟨filt0, ⟨false, false, false, false, false, false⟩⟩).dirs.card) ∧
    detect_all_six_directions ⟨0, 0, 0⟩ ⟨0, 0, 0⟩ (some 5) 0 ⟨true, true, false⟩
      [⟨⟨10, 0, 0⟩, 1/10⟩, ⟨⟨-20, 0, 0⟩, 2/10⟩, ⟨⟨0, 10, 0⟩, 3/10⟩, ⟨⟨0, 0, 0⟩, 6⟩] =
      some false := by
  refine ⟨sixStep_dirs, sixStep_mono, ?_, ?_⟩
  · intro baseline filt0 start_time axes trace
    exact detectAllSixLoop_true_iff baseline axes (axes.count * 2) start_time trace _
  · norm_num [detect_all_six_directions, detectAllSixLoop, sixStep, updateFiltered,
      ema_filter, ACCEL_EMA_ALPHA, TILT_THRESHOLD, AxisSet.count, DirSet.card, timeoutHit]

/-- Witness for C3 (the trace-level success equivalence at a concrete
run reaching all four of `±X, ±Y`). -/
theorem detect_all_six_directions_tokens_witness :
    detect_all_six_directions ⟨0, 0, 0⟩ ⟨0, 0, 0⟩ none 0 ⟨true, true, false⟩
      [⟨⟨10, 0, 0⟩, 1/10⟩, ⟨⟨-20, 0, 0⟩, 2/10⟩, ⟨⟨0, 10, 0⟩, 3/10⟩, ⟨⟨0, -30, 0⟩, 4/10⟩] =
      some true := by
  rw [(detect_all_six_directions_tokens.2.2.1 ⟨0, 0, 0⟩ ⟨0, 0, 0⟩ 0 ⟨true, true, false⟩
    [⟨⟨10, 0, 0⟩, 1/10⟩, ⟨⟨-20, 0, 0⟩, 2/10⟩, ⟨⟨0, 10, 0⟩, 3/10⟩, ⟨⟨0, -30, 0⟩, 4/10⟩])]
  refine ⟨3, by norm_num, ?_⟩
  norm_num [sixStep, updateFiltered, ema_filter, ACCEL_EMA_ALPHA, TILT_THRESHOLD,
    AxisSet.count, DirSet.card]

/-! ## detect_double_click_button -/

/-- `DOUBLE_CLICK_WINDOW = 0.5` (local constant of
`detect_double_click_button`). -/
def DOUBLE_CLICK_WINDOW : ℚ := 1/2

/-- One loop iteration of a button loop: the debounced `fell` edges seen
by this tick's `update()`, and the monotonic clock. -/
structure ClickTick where
  leftFell : Bool
  rightFell : Bool
  t : ℚ
deriving DecidableEq, Repr

/-- `last_left_click` / `last_right_click`. -/
structure ClickState where
  lastLeft : Option ℚ
  lastRight : Option ℚ
deriving DecidableEq, Repr

/-- Python `last is not None and (now - last) <= DOUBLE_CLICK_WINDOW`. -/
def withinWindow (last : Option ℚ) (now : ℚ) : Bool :=
  match last with
  | none => false
  | some tl => decide (now - tl ≤ DOUBLE_CLICK_WINDOW)

/-- The pending-click updates of one tick (the `else` branches that
record `last_left_click = now` / `last_right_click = now`). -/
def clickPend (s : ClickState) (k : ClickTick) : ClickState :=
  let s₁ : ClickState := if k.leftFell then ⟨some k.t, s.lastRight⟩ else s
  if k.rightFell then ⟨s₁.lastLeft, some k.t⟩ else s₁

/-- The `while True` loop of `detect_double_click_button`: the left
button's second-click test runs first, then the right button's (on the
pre-tick pending state, which the left update cannot touch), then the
timeout check. -/
def detectDoubleClickLoop (timeout_s : Option ℚ) (start_time : ℚ) :
    List ClickTick → ClickState → Option Bool
  | [], _ => none
  | k :: rest, s =>
    if k.leftFell && withinWindow s.lastLeft k.t then some true
    else if k.rightFell && withinWindow s.lastRight k.t then some true
    else if timeoutHit timeout_s (k.t - start_time) then some false
    else detectDoubleClickLoop timeout_s start_time rest (clickPend s k)

/-- `InputManager.detect_double_click_button`: both pending clicks start
as `None`. -/
def detect_double_click_button (timeout_s : Option ℚ) (start_time : ℚ)
    (trace : List ClickTick) : Option Bool :=
  detectDoubleClickLoop timeout_s start_time trace ⟨none, none⟩

/-! ### Lemmas for C4 -/

theorem withinWindow_eq_true (last : Option ℚ) (now : ℚ) :
    withinWindow last now = true ↔
      ∃ tl, last = some tl ∧ now - tl ≤ DOUBLE_CLICK_WINDOW := by
  cases last <;> simp [withinWindow]

theorem clickPend_lastLeft (s : ClickState) (k : ClickTick) :
    (clickPend s k).lastLeft = if k.leftFell then some k.t else s.lastLeft := by
  unfold clickPend
  cases hl : k.leftFell <;> cases hr : k.rightFell <;> simp

theorem clickPend_lastRight (s : ClickState) (k : ClickTick) :
    (clickPend s k).lastRight = if k.rightFell then some k.t else s.lastRight := by
  unfold clickPend
  cases hl : k.leftFell <;> cases hr : k.rightFell <;> simp

theorem dcLoop_sound (timeout_s : Option ℚ) (start_time : ℚ) :
    ∀ (trace : List ClickTick) (s : ClickState),
      detectDoubleClickLoop timeout_s start_time trace s = some true →
      ∃ j, ∃ hj : j < trace.length,
        ((trace.get ⟨j, hj⟩).leftFell = true ∧
          ((∃ i, ∃ hi : i < trace.length, i < j ∧ (trace.get ⟨i, hi⟩).leftFell = true ∧
             (trace.get ⟨j, hj⟩).t - (trace.get ⟨i, hi⟩).t ≤ DOUBLE_CLICK_WINDOW) ∨
           (∃ tl, s.lastLeft = some tl ∧
             (trace.get ⟨j, hj⟩).t - tl ≤ DOUBLE_CLICK_WINDOW))) ∨
        ((trace.get ⟨j, hj⟩).rightFell = true ∧
          ((∃ i, ∃ hi : i < trace.length, i < j ∧ (trace.get ⟨i, hi⟩).rightFell = true ∧
             (trace.get ⟨j, hj⟩).t - (trace.get ⟨i, hi⟩).t ≤ DOUBLE_CLICK_WINDOW) ∨
           (∃ tl, s.lastRight = some tl ∧
             (trace.get ⟨j, hj⟩).t - tl ≤ DOUBLE_CLICK_WINDOW)))
  | [], s => by simp [detectDoubleClickLoop]
  | k :: rest, s => by
    intro h
    rw [detectDoubleClickLoop] at h
    by_cases hL : (k.leftFell && withinWindow s.lastLeft k.t) = true
    · obtain ⟨hlf, hlw⟩ := Bool.and_eq_true_iff.mp hL
      obtain ⟨tl, htl, hgap⟩ := (withinWindow_eq_true _ _).mp hlw
      exact ⟨0, Nat.succ_pos _, Or.inl ⟨hlf, Or.inr ⟨tl, htl, hgap⟩⟩⟩
    · rw [if_neg hL] at h
      by_cases hR : (k.rightFell && withinWindow s.lastRight k.t) = true
      · obtain ⟨hrf, hrw⟩ := Bool.and_eq_true_iff.mp hR
        obtain ⟨tl, htl, hgap⟩ := (withinWindow_eq_true _ _).mp hrw
        exact ⟨0, Nat.succ_pos _, Or.inr ⟨hrf, Or.inr ⟨tl, htl, hgap⟩⟩⟩
      · rw [if_neg hR] at h
        by_cases hT : timeoutHit timeout_s (k.t - start_time) = true
        · rw [if_pos hT] at h
          exact absurd (Option.some.inj h) Bool.false_ne_true
        · rw [if_neg hT] at h
          obtain ⟨j, hj, H⟩ := dcLoop_sound timeout_s start_time rest (clickPend s k) h
          refine ⟨j + 1, Nat.succ_lt_succ hj, ?_⟩
          rcases H with ⟨hfell, hcase⟩ | ⟨hfell, hcase⟩
          · refine Or.inl ⟨hfell, ?_⟩
            rcases hcase with ⟨i, hi, hij, hifell, higap⟩ | ⟨tl, htl, hgap⟩
            · exact Or.inl ⟨i + 1, Nat.succ_lt_succ hi, Nat.succ_lt_succ hij, hifell, higap⟩
            · rw [clickPend_lastLeft] at htl
              by_cases hkl : k.leftFell = true
              · rw [if_pos hkl] at htl
                cases Option.some.inj htl
                exact Or.inl ⟨0, Nat.succ_pos _, Nat.succ_pos _, hkl, hgap⟩
              · rw [if_neg hkl] at htl
                exact Or.inr ⟨tl, htl, hgap⟩
          · refine Or.inr ⟨hfell, ?_⟩
            rcases hcase with ⟨i, hi, hij, hifell, higap⟩ | ⟨tl, htl, hgap⟩
            · exact Or.inl ⟨i + 1, Nat.succ_lt_succ hi, Nat.succ_lt_succ hij, hifell, higap⟩
            · rw [clickPend_lastRight] at htl
              by_cases hkr : k.rightFell = true
              · rw [if_pos hkr] at htl
                cases Option.some.inj htl
                exact Or.inl ⟨0, Nat.succ_pos _, Nat.succ_pos _, hkr, hgap⟩
              · rw [if_neg hkr] at htl
                exact Or.inr ⟨tl, htl, hgap⟩

theorem dcLoop_complete_left (start_time : ℚ) :
    ∀ (trace : List ClickTick) (s : ClickState) (tl : ℚ),
      trace.Pairwise (fun a b => a.t ≤ b.t) →
      s.lastLeft = some tl →
      (∀ x ∈ trace, tl ≤ x.t) →
      (∃ j, ∃ hj : j < trace.length, (trace.get ⟨j, hj⟩).leftFell = true ∧
        (trace.get ⟨j, hj⟩).t - tl ≤ DOUBLE_CLICK_WINDOW) →
      detectDoubleClickLoop none start_time trace s = some true
  | [], s, tl => by
    rintro - - - ⟨j, hj, -⟩
    exact absurd hj (Nat.not_lt_zero j)
  | k :: rest, s, tl => by
    rintro hmono hlast htl ⟨j, hj, hfell, hgap⟩
    rw [detectDoubleClickLoop]
    by_cases hL : (k.leftFell && withinWindow s.lastLeft k.t) = true
    · rw [if_pos hL]
    · rw [if_neg hL]
      by_cases hR : (k.rightFell && withinWindow s.lastRight k.t) = true
      · rw [if_pos hR]
      · rw [if_neg hR]
        have hT : timeoutHit none (k.t - start_time) = false := rfl
        rw [hT]
        simp only [Bool.false_eq_true, if_false]
        cases j with
        | zero =>
          exfalso
          apply hL
          refine Bool.and_eq_true_iff.mpr ⟨hfell, ?_⟩
          rw [hlast, withinWindow]
          exact decide_eq_true hgap
        | succ j' =>
          have hrest_mono := hmono.of_cons
          have hhead : ∀ x ∈ rest, k.t ≤ x.t := (List.pairwise_cons.mp hmono).1
          have htlk : tl ≤ k.t := htl k (List.mem_cons_self k rest)
          by_cases hkl : k.leftFell = true
          · refine dcLoop_complete_left start_time rest (clickPend s k) k.t hrest_mono ?_
              hhead ⟨j', Nat.lt_of_succ_lt_succ hj, hfell, ?_⟩
            · rw [clickPend_lastLeft, if_pos hkl]
            · have : (rest.get ⟨j', Nat.lt_of_succ_lt_succ hj⟩).t - k.t ≤
                  (rest.get ⟨j', Nat.lt_of_succ_lt_succ hj⟩).t - tl := by linarith
              exact le_trans this hgap
          · refine dcLoop_complete_left start_time rest (clickPend s k) tl hrest_mono ?_
              (fun x hx => htl x (List.mem_cons_of_mem k hx))
              ⟨j', Nat.lt_of_succ_lt_succ hj, hfell, hgap⟩
            rw [clickPend_lastLeft, if_neg hkl, hlast]

theorem dcLoop_complete_right (start_time : ℚ) :
    ∀ (trace : List ClickTick) (s : ClickState) (tl : ℚ),
      trace.Pairwise (fun a b => a.t ≤ b.t) →
      s.lastRight = some tl →
      (∀ x ∈ trace, tl ≤ x.t) →
      (∃ j, ∃ hj : j < trace.length, (trace.get ⟨j, hj⟩).rightFell = true ∧
        (trace.get ⟨j, hj⟩).t - tl ≤ DOUBLE_CLICK_WINDOW) →
      detectDoubleClickLoop none start_time trace s = some true
  | [], s, tl => by
    rintro - - - ⟨j, hj, -⟩
    exact absurd hj (Nat.not_lt_zero j)
  | k :: rest, s, tl => by
    rintro hmono hlast htl ⟨j, hj, hfell, hgap⟩
    rw [detectDoubleClickLoop]
    by_cases hL : (k.leftFell && withinWindow s.lastLeft k.t) = true
    · rw [if_pos hL]
    · rw [if_neg hL]
      by_cases hR : (k.rightFell && withinWindow s.lastRight k.t) = true
      · rw [if_pos hR]
      · rw [if_neg hR]
        have hT : timeoutHit none (k.t - start_time) = false := rfl
        rw [hT]
        simp only [Bool.false_eq_true, if_false]
        cases j with
        | zero =>
          exfalso
          apply hR
          refine Bool.and_eq_true_iff.mpr ⟨hfell, ?_⟩
          rw [hlast, withinWindow]
          exact decide_eq_true hgap
        | succ j' =>
          have hrest_mono := hmono.of_cons
          have hhead : ∀ x ∈ rest, k.t ≤ x.t := (List.pairwise_cons.mp hmono).1
          have htlk : tl ≤ k.t := htl k (List.mem_cons_self k rest)
          by_cases hkr : k.rightFell = true
          · refine dcLoop_complete_right start_time rest (clickPend s k) k.t hrest_mono ?_
              hhead ⟨j', Nat.lt_of_succ_lt_succ hj, hfell, ?_⟩
            · rw [clickPend_lastRight, if_pos hkr]
            · have : (rest.get ⟨j', Nat.lt_of_succ_lt_succ hj⟩).t - k.t ≤
                  (rest.get ⟨j', Nat.lt_of_succ_lt_succ hj⟩).t - tl := by linarith
              exact le_trans this hgap
          · refine dcLoop_complete_right start_time rest (clickPend s k) tl hrest_mono ?_
              (fun x hx => htl x (List.mem_cons_of_mem k hx))
              ⟨j', Nat.lt_of_succ_lt_succ hj, hfell, hgap⟩
            rw [clickPend_lastRight, if_neg hkr, hlast]

theorem dcLoop_complete (start_time : ℚ) :
    ∀ (trace : List ClickTick) (s : ClickState),
      trace.Pairwise (fun a b => a.t ≤ b.t) →
      (∃ i j, ∃ hi : i < trace.length, ∃ hj : j < trace.length, i < j ∧
        (((trace.get ⟨i, hi⟩).leftFell = true ∧ (trace.get ⟨j, hj⟩).leftFell = true) ∨
         ((trace.get ⟨i, hi⟩).rightFell = true ∧ (trace.get ⟨j, hj⟩).rightFell = true)) ∧
        (trace.get ⟨j, hj⟩).t - (trace.get ⟨i, hi⟩).t ≤ DOUBLE_CLICK_WINDOW) →
      detectDoubleClickLoop none start_time trace s = some true
  | [], s => by
    rintro - ⟨i, j, hi, -⟩
    exact absurd hi (Nat.not_lt_zero i)
  | k :: rest, s => by
    rintro hmono ⟨i, j, hi, hj, hij, hbtn, hgap⟩
    rw [detectDoubleClickLoop]
    by_cases hL : (k.leftFell && withinWindow s.lastLeft k.t) = true
    · rw [if_pos hL]
    · rw [if_neg hL]
      by_cases hR : (k.rightFell && withinWindow s.lastRight k.t) = true
      · rw [if_pos hR]
      · rw [if_neg hR]
        have hT : timeoutHit none (k.t - start_time) = false := rfl
        rw [hT]
        simp only [Bool.false_eq_true, if_false]
        have hrest_mono := hmono.of_cons
        have hhead : ∀ x ∈ rest, k.t ≤ x.t := (List.pairwise_cons.mp hmono).1
        cases i with
        | zero =>
          cases j with
          | zero => exact absurd hij (Nat.lt_irrefl 0)
          | succ j' =>
            simp only [List.get_cons_succ] at hbtn hgap
            have hk0 : (k :: rest).get ⟨0, hi⟩ = k := rfl
            rw [hk0] at hbtn hgap
            rcases hbtn with ⟨hkf, hjf⟩ | ⟨hkf, hjf⟩
            · refine dcLoop_complete_left start_time rest (clickPend s k) k.t hrest_mono ?_
                hhead ⟨j', Nat.lt_of_succ_lt_succ hj, hjf, hgap⟩
              rw [clickPend_lastLeft, if_pos hkf]
            · refine dcLoop_complete_right start_time rest (clickPend s k) k.t hrest_mono ?_
                hhead ⟨j', Nat.lt_of_succ_lt_succ hj, hjf, hgap⟩
              rw [clickPend_lastRight, if_pos hkf]
        | succ i' =>
          cases j with
          | zero => exact absurd hij (Nat.not_lt_zero _)
          | succ j' =>
            simp only [List.get_cons_succ] at hbtn hgap
            exact dcLoop_complete start_time rest (clickPend s k) hrest_mono
              ⟨i', j', Nat.lt_of_succ_lt_succ hi, Nat.lt_of_succ_lt_succ hj,
                Nat.lt_of_succ_lt_succ hij, hbtn, hgap⟩

/-! ### Claim theorem C4 -/

/-- C4: `detect_double_click_button` returns `True` only if two fell
edges occurred on the same button at most `DOUBLE_CLICK_WINDOW = 0.5`
seconds apart (so edges on different buttons never combine); with no
timeout and a time-monotone trace, such a same-button pair also
suffices; and a fell edge always becomes the new pending click for its
button (so a second click arriving after the window restarts the
window). -/
theorem detect_double_click_button_window :
    (∀ (timeout_s : Option ℚ) (start_time : ℚ) (trace : List ClickTick),
      detect_double_click_button timeout_s start_time trace = some true →
      ∃ i j, ∃ hi : i < trace.length, ∃ hj : j < trace.length, i < j ∧
        (((trace.get ⟨i, hi⟩).leftFell = true ∧ (trace.get ⟨j, hj⟩).leftFell = true) ∨
         ((trace.get ⟨i, hi⟩).rightFell = true ∧ (trace.get ⟨j, hj⟩).rightFell = true)) ∧
        (trace.get ⟨j, hj⟩).t - (trace.get ⟨i, hi⟩).t ≤ DOUBLE_CLICK_WINDOW) ∧
    (∀ (start_time : ℚ) (trace : List ClickTick),
      trace.Pairwise (fun a b => a.t ≤ b.t) →
      (∃ i j, ∃ hi : i < trace.length, ∃ hj : j < trace.length, i < j ∧
        (((trace.get ⟨i, hi⟩).leftFell = true ∧ (trace.get ⟨j, hj⟩).leftFell = true) ∨
         ((trace.get ⟨i, hi⟩).rightFell = true ∧ (trace.get ⟨j, hj⟩).rightFell = true)) ∧
        (trace.get ⟨j, hj⟩).t - (trace.get ⟨i, hi⟩).t ≤ DOUBLE_CLICK_WINDOW) →
      detect_double_click_button none start_time trace = some true) ∧
    (∀ (s : ClickState) (k : ClickTick),
      (clickPend s k).lastLeft = (if k.leftFell then some k.t else s.lastLeft) ∧
      (clickPend s k).lastRight = (if k.rightFell then some k.t else s.lastRight)) := by
  refine ⟨?_, ?_, fun s k => ⟨clickPend_lastLeft s k, clickPend_lastRight s k⟩⟩
  · intro timeout_s start_time trace h
    obtain ⟨j, hj, H⟩ := dcLoop_sound timeout_s start_time trace ⟨none, none⟩ h
    rcases H with ⟨hfell, hcase⟩ | ⟨hfell, hcase⟩
    · rcases hcase with ⟨i, hi, hij, hifell, higap⟩ | ⟨tl, htl, -⟩
      · exact ⟨i, j, hi, hj, hij, Or.inl ⟨hifell, hfell⟩, higap⟩
      · exact absurd htl (Option.noConfusion)
    · rcases hcase with ⟨i, hi, hij, hifell, higap⟩ | ⟨tl, htl, -⟩
      · exact ⟨i, j, hi, hj, hij, Or.inr ⟨hifell, hfell⟩, higap⟩
      · exact absurd htl (Option.noConfusion)
  · intro start_time trace hmono hpair
    exact dcLoop_complete start_time trace ⟨none, none⟩ hmono hpair

/-- Witness for C4: a concrete left double-click 0.3 s apart triggers
detection (via the completeness direction), and soundness extracts a
same-button pair from that run. -/
theorem detect_double_click_button_window_witness :
    detect_double_click_button none 0
      [⟨true, false, 1⟩, ⟨false, true, 11/10⟩, ⟨true, false, 13/10⟩] = some true := by
  refine detect_double_click_button_window.2.1 0
    [⟨true, false, 1⟩, ⟨false, true, 11/10⟩, ⟨true, false, 13/10⟩]
    ?_ ⟨0, 2, by norm_num, by norm_num, by norm_num, Or.inl ⟨rfl, rfl⟩, ?_⟩
  · refine List.pairwise_cons.mpr ⟨?_, List.pairwise_cons.mpr ⟨?_, ?_⟩⟩
    · intro x hx
      rcases List.mem_cons.mp hx with rfl | hx
      · norm_num
      · rcases List.mem_singleton.mp hx with rfl
        norm_num
    · intro x hx
      rcases List.mem_singleton.mp hx with rfl
      norm_num
    · exact List.pairwise_singleton _ _
  · show (13:ℚ)/10 - 1 ≤ DOUBLE_CLICK_WINDOW
    norm_num [DOUBLE_CLICK_WINDOW]

/-! ## both_buttons_held -/

/-- One iteration of the `both_buttons_held` loop: the debounced levels
(`Debouncer.value`; `true` means released, since the inputs are
pulled up and pressed is logic-low) and the monotonic clock. -/
structure HoldTick where
  leftValue : Bool
  rightValue : Bool
  t : ℚ
deriving DecidableEq, Repr

/-- `InputManager.both_buttons_held`: the `while` condition is checked
against the clock first; inside the loop, a released level on either
button returns `False` at once; when the window has elapsed the loop
exits and returns `True`. -/
def both_buttons_held (duration_s start_time : ℚ) : List HoldTick → Option Bool
  | [] => none
  | k :: rest =>
    if k.t - start_time < duration_s then
      if k.leftValue || k.rightValue then some false
      else both_buttons_held duration_s start_time rest
    else some true

/-! ### Lemmas for C5 -/

theorem bbh_true_all_pressed (duration_s start_time : ℚ) :
    ∀ (trace : List HoldTick), trace.Pairwise (fun a b => a.t ≤ b.t) →
      both_buttons_held duration_s start_time trace = some true →
      ∀ k ∈ trace, k.t - start_time < duration_s →
        k.leftValue = false ∧ k.rightValue = false
  | [] => by
    intro _ _ k hk
    exact absurd hk (List.not_mem_nil k)
  | k :: rest => by
    intro hmono h j hj hjt
    rw [both_buttons_held] at h
    by_cases hw : k.t - start_time < duration_s
    · rw [if_pos hw] at h
      by_cases hrel : (k.leftValue || k.rightValue) = true
      · rw [if_pos hrel] at h
        exact absurd (Option.some.inj h) Bool.false_ne_true
      · rw [if_neg hrel] at h
        rcases List.mem_cons.mp hj with rfl | hjr
        · simpa using hrel
        · exact bbh_true_all_pressed duration_s start_time rest hmono.of_cons h j hjr hjt
    · rw [if_neg hw] at h
      rcases List.mem_cons.mp hj with rfl | hjr
      · exact absurd hjt hw
      · exfalso
        have hkj : k.t ≤ j.t := (List.pairwise_cons.mp hmono).1 j hjr
        have := le_of_not_lt hw
        linarith

theorem bbh_release_false (duration_s start_time : ℚ) :
    ∀ (trace : List HoldTick), trace.Pairwise (fun a b => a.t ≤ b.t) →
      ∀ j, ∀ hj : j < trace.length,
        ((trace.get ⟨j, hj⟩).leftValue = true ∨ (trace.get ⟨j, hj⟩).rightValue = true) →
        (trace.get ⟨j, hj⟩).t - start_time < duration_s →
        both_buttons_held duration_s start_time trace = some false
  | [] => by
    intro _ j hj
    exact absurd hj (Nat.not_lt_zero j)
  | k :: rest => by
    intro hmono j hj hrel hjt
    rw [both_buttons_held]
    cases j with
    | zero =>
      have hk0 : (k :: rest).get ⟨0, hj⟩ = k := rfl
      rw [hk0] at hrel hjt
      rw [if_pos hjt, if_pos (by rcases hrel with h | h <;> simp [h])]
    | succ j' =>
      simp only [List.get_cons_succ] at hrel hjt
      have hmem : rest.get ⟨j', Nat.lt_of_succ_lt_succ hj⟩ ∈ rest := List.get_mem _ _ _
      have hkj : k.t ≤ (rest.get ⟨j', Nat.lt_of_succ_lt_succ hj⟩).t :=
        (List.pairwise_cons.mp hmono).1 _ hmem
      have hkw : k.t - start_time < duration_s := by linarith
      rw [if_pos hkw]
      by_cases hrelk : (k.leftValue || k.rightValue) = true
      · rw [if_pos hrelk]
      · rw [if_neg hrelk]
        exact bbh_release_false duration_s start_time rest hmono.of_cons j'
          (Nat.lt_of_succ_lt_succ hj) hrel hjt

/-! ### Claim theorem C5 -/

/-- C5: on a time-monotone trace, `both_buttons_held` returns `True`
only if both debounced levels read pressed (`false`) on every tick
inside the duration window; and it returns `False` whenever some tick
inside the window reads either button released — regardless of what
later ticks (e.g. a re-press) contain, so no credit survives a
release. -/
theorem both_buttons_held_continuous (duration_s start_time : ℚ)
    (trace : List HoldTick) (hmono : trace.Pairwise (fun a b => a.t ≤ b.t)) :
    (both_buttons_held duration_s start_time trace = some true →
      ∀ k ∈ trace, k.t - start_time < duration_s →
        k.leftValue = false ∧ k.rightValue = false) ∧
    (∀ j, ∀ hj : j < trace.length,
      ((trace.get ⟨j, hj⟩).leftValue = true ∨ (trace.get ⟨j, hj⟩).rightValue = true) →
      (trace.get ⟨j, hj⟩).t - start_time < duration_s →
      both_buttons_held duration_s start_time trace = some false) :=
  ⟨bbh_true_all_pressed duration_s start_time trace hmono,
   bbh_release_false duration_s start_time trace hmono⟩

/-- Witness for C5: a release on the second tick of a 1-second hold
(followed by a re-press) yields `False`. -/
theorem both_buttons_held_continuous_witness :
    both_buttons_held 1 0
      [⟨false, false, 1/10⟩, ⟨true, false, 2/10⟩, ⟨false, false, 3/10⟩] = some false := by
  refine (both_buttons_held_continuous 1 0
    [⟨false, false, 1/10⟩, ⟨true, false, 2/10⟩, ⟨false, false, 3/10⟩] ?_).2 1 (by norm_num)
    (Or.inl rfl) (by norm_num)
  refine List.pairwise_cons.mpr ⟨?_, List.pairwise_cons.mpr ⟨?_, ?_⟩⟩
  · intro x hx
    rcases List.mem_cons.mp hx with rfl | hx
    · norm_num
    · rcases List.mem_singleton.mp hx with rfl
      norm_num
  · intro x hx
    rcases List.mem_singleton.mp hx with rfl
    norm_num
  · exact List.pairwise_singleton _ _

/-! ## detect_tilt_forward and detect_double_tap -/

/-- The `while True` loop of `detect_tilt_forward`: success when the
filtered y value exceeds `TILT_THRESHOLD` (raw filtered value, not
baseline-relative), then the truthiness-guarded timeout check. -/
def detectTiltForwardLoop (timeout_s : Option ℚ) (start_time : ℚ) :
    List MoveTick → V3 → Option Bool
  | [], _ => none
  | k :: rest, filt =>
    let filt' := updateFiltered filt k.raw
    if filt'.y > TILT_THRESHOLD then some true
    else if timeoutHit timeout_s (k.t - start_time) then some false
    else detectTiltForwardLoop timeout_s start_time rest filt'

/-- `InputManager.detect_tilt_forward`. -/
def detect_tilt_forward (filt0 : V3) (timeout_s : Option ℚ) (start_time : ℚ)
    (trace : List MoveTick) : Option Bool :=
  detectTiltForwardLoop timeout_s start_time trace filt0

/-- One iteration of the `detect_double_tap` loop: whether
`self.accelerometer.events["tap"]` fired, and the clock. -/
structure TapTick where
  tap : Bool
  t : ℚ
deriving DecidableEq, Repr

/-- Python `self.last_tap_time is not None and (now - self.last_tap_time)
<= DOUBLE_TAP_WINDOW`. -/
def tapWithin (last_tap_time : Option ℚ) (now : ℚ) : Bool :=
  match last_tap_time with
  | none => false
  | some tl => decide (now - tl ≤ DOUBLE_TAP_WINDOW)

/-- The `while True` loop of `detect_double_tap`. -/
def detectDoubleTapLoop (timeout_s : Option ℚ) (start_time : ℚ) :
    List TapTick → Option ℚ → Option Bool
  | [], _ => none
  | k :: rest, last_tap_time =>
    if k.tap && tapWithin last_tap_time k.t then some true
    else
      let last' := if k.tap then some k.t else last_tap_time
      if timeoutHit timeout_s (k.t - start_time) then some false
      else detectDoubleTapLoop timeout_s start_time rest last'

/-- `InputManager.detect_double_tap`: `self.last_tap_time` is reset to
`None` at the start of the call. -/
def detect_double_tap (timeout_s : Option ℚ) (start_time : ℚ)
    (trace : List TapTick) : Option Bool :=
  detectDoubleTapLoop timeout_s start_time trace none

/-! ### Lemmas for C10: a falsy timeout behaves like None -/

theorem timeoutHit_zero (elapsed : ℚ) : timeoutHit (some 0) elapsed = false := by
  simp [timeoutHit]

theorem detectMovementLoop_zero_timeout (baseline : V3) (required : Option AxisSet)
    (start_time : ℚ) :
    ∀ (trace : List MoveTick) (s : MoveState),
      detectMovementLoop baseline (some 0) required start_time s trace =
        detectMovementLoop baseline none required start_time s trace
  | [], s => rfl
  | k :: rest, s => by
    rw [detectMovementLoop, detectMovementLoop, timeoutHit_zero]
    have hn : timeoutHit none (k.t - start_time) = false := rfl
    rw [hn]
    by_cases h : moveSuccess baseline required (moveStep baseline required s k) = true
    · rw [if_pos h, if_pos h]
    · rw [if_neg h, if_neg h]
      simp only [Bool.false_eq_true, if_false]
      exact detectMovementLoop_zero_timeout baseline required start_time rest _

theorem detectTiltForwardLoop_zero_timeout (start_time : ℚ) :
    ∀ (trace : List MoveTick) (filt : V3),
      detectTiltForwardLoop (some 0) start_time trace filt =
        detectTiltForwardLoop none start_time trace filt
  | [], filt => rfl
  | k :: rest, filt => by
    rw [detectTiltForwardLoop, detectTiltForwardLoop, timeoutHit_zero]
    have hn : timeoutHit none (k.t - start_time) = false := rfl
    rw [hn]
    by_cases h : (updateFiltered filt k.raw).y > TILT_THRESHOLD
    · rw [if_pos h, if_pos h]
    · rw [if_neg h, if_neg h]
      simp only [Bool.false_eq_true, if_false]
      exact detectTiltForwardLoop_zero_timeout start_time rest _

theorem detectAllSixLoop_zero_timeout (baseline : V3) (axes : AxisSet)
    (required_count : ℕ) (start_time : ℚ) :
    ∀ (trace : List MoveTick) (s : SixState),
      detectAllSixLoop baseline (some 0) axes required_count start_time s trace =
        detectAllSixLoop baseline none axes required_count start_time s trace
  | [], s => rfl
  | k :: rest, s => by
    rw [detectAllSixLoop, detectAllSixLoop, timeoutHit_zero]
    have hn : timeoutHit none (k.t - start_time) = false := rfl
    rw [hn]
    by_cases h : required_count ≤ (sixStep baseline axes s k).dirs.card
    · rw [if_pos h, if_pos h]
    · rw [if_neg h, if_neg h]
      simp only [Bool.false_eq_true, if_false]
      exact detectAllSixLoop_zero_timeout baseline axes required_count start_time rest _

theorem detectDoubleTapLoop_zero_timeout (start_time : ℚ) :
    ∀ (trace : List TapTick) (last_tap_time : Option ℚ),
      detectDoubleTapLoop (some 0) start_time trace last_tap_time =
        detectDoubleTapLoop none start_time trace last_tap_time
  | [], last => rfl
  | k :: rest, last => by
    rw [detectDoubleTapLoop, detectDoubleTapLoop, timeoutHit_zero]
    have hn : timeoutHit none (k.t - start_time) = false := rfl
    rw [hn]
    by_cases h : (k.tap && tapWithin last k.t) = true
    · rw [if_pos h, if_pos h]
    · rw [if_neg h, if_neg h]
      simp only [Bool.false_eq_true, if_false]
      exact detectDoubleTapLoop_zero_timeout start_time rest _

theorem detectDoubleClickLoop_zero_timeout (start_time : ℚ) :
    ∀ (trace : List ClickTick) (s : ClickState),
      detectDoubleClickLoop (some 0) start_time trace s =
        detectDoubleClickLoop none start_time trace s
  | [], s => rfl
  | k :: rest, s => by
    rw [detectDoubleClickLoop, detectDoubleClickLoop, timeoutHit_zero]
    have hn : timeoutHit none (k.t - start_time) = false := rfl
    rw [hn]
    by_cases hL : (k.leftFell && withinWindow s.lastLeft k.t) = true
    · rw [if_pos hL, if_pos hL]
    · rw [if_neg hL, if_neg hL]
      by_cases hR : (k.rightFell && withinWindow s.lastRight k.t) = true
      · rw [if_pos hR, if_pos hR]
      · rw [if_neg hR, if_neg hR]
        simp only [Bool.false_eq_true, if_false]
        exact detectDoubleClickLoop_zero_timeout start_time rest _

/-! ### Claim theorem C10 -/

/-- C10: passing the falsy timeout `0` to `detect_movement`,
`detect_tilt_forward`, `detect_all_six_directions`, `detect_double_tap`
or `detect_double_click_button` skips the timeout check entirely and
behaves exactly like passing `None`; by contrast
`both_buttons_held 0` exits its `while` loop at the first clock reading
and returns `True` whatever the button levels are. -/
theorem falsy_timeout_means_no_timeout :
    (∀ (baseline filt0 : V3) (require_axes : Option AxisSet) (start_time : ℚ)
        (trace : List MoveTick),
      detect_movement baseline filt0 (some 0) require_axes start_time trace =
        detect_movement baseline filt0 none require_axes start_time trace) ∧
    (∀ (filt0 : V3) (start_time : ℚ) (trace : List MoveTick),
      detect_tilt_forward filt0 (some 0) start_time trace =
        detect_tilt_forward filt0 none start_time trace) ∧
    (∀ (baseline filt0 : V3) (start_time : ℚ) (axes : AxisSet) (trace : List MoveTick),
      detect_all_six_directions baseline filt0 (some 0) start_time axes trace =
        detect_all_six_directions baseline filt0 none start_time axes trace) ∧
    (∀ (start_time : ℚ) (trace : List TapTick),
      detect_double_tap (some 0) start_time trace =
        detect_double_tap none start_time trace) ∧
    (∀ (start_time : ℚ) (trace : List ClickTick),
      detect_double_click_button (some 0) start_time trace =
        detect_double_click_button none start_time trace) ∧
    (∀ (start_time : ℚ) (k : HoldTick) (rest : List HoldTick), start_time ≤ k.t →
      both_buttons_held 0 start_time (k :: rest) = some true) := by
  refine ⟨?_, ?_, ?_, ?_, ?_, ?_⟩
  · intro baseline filt0 require_axes start_time trace
    exact detectMovementLoop_zero_timeout baseline require_axes start_time trace _
  · intro filt0 start_time trace
    exact detectTiltForwardLoop_zero_timeout start_time trace _
  · intro baseline filt0 start_time axes trace
    exact detectAllSixLoop_zero_timeout baseline axes _ start_time trace _
  · intro start_time trace
    exact detectDoubleTapLoop_zero_timeout start_time trace _
  · intro start_time trace
    exact detectDoubleClickLoop_zero_timeout start_time trace _
  · intro start_time k rest hk
    rw [both_buttons_held, if_neg (by simp; linarith)]

/-- Witness for C10: `both_buttons_held 0` returns `True` immediately
even though the very first tick reads both buttons released. -/
theorem falsy_timeout_means_no_timeout_witness :
    both_buttons_held 0 0 [⟨true, true, 1/100⟩] = some true :=
  falsy_timeout_means_no_timeout.2.2.2.2.2 0 ⟨true, true, 1/100⟩ [] (by norm_num)

/-! ## update() fault behaviour and get_direction (C7) -/

/-- The accelerometer part of `InputManager.update()`: the read
`self.accelerometer.acceleration` is not wrapped in try/except, so a
raised exception (modelled as `Except.error`) propagates to the caller;
a successful read performs the EMA update of the filtered triple. -/
def update_accel (reading : Except Unit V3) (filt : V3) : Except Unit V3 :=
  match reading with
  | Except.error e => Except.error e
  | Except.ok raw => Except.ok (updateFiltered filt raw)

/-- `InputManager.get_direction`: `None` when `self._accel_reader` is
`None`; the call `self._accel_reader.update()` is wrapped in
try/except, so a raised exception yields `None`; otherwise the reader's
result is forwarded. -/
def get_direction (reader : Option (Except Unit (Option String))) : Option String :=
  match reader with
  | none => none
  | some (Except.error _) => none
  | some (Except.ok d) => d

/-- The claim's reading of `update()` (from the spec's words): a failed
accelerometer read is absorbed as "no reading this tick" and never
surfaces to the caller of `update()`. -/
def updateReadFailureContained : Prop :=
  ∀ filt : V3, ∃ filt', update_accel (Except.error ()) filt = Except.ok filt'

/-! ### Claim C7: counterexample and amended theorem -/

/-- C7 counterexample: at the concrete filtered state `(0,0,0)`, a
failed accelerometer read makes `update()` itself fail — the fault
propagates to the caller instead of being absorbed. -/
theorem update_accel_fault_propagates_cex :
    update_accel (Except.error ()) ⟨0, 0, 0⟩ = Except.error () ∧
      ¬ updateReadFailureContained := by
  refine ⟨rfl, fun h => ?_⟩
  obtain ⟨filt', hf⟩ := h ⟨0, 0, 0⟩
  exact Except.noConfusion hf

/-- C7 (amended): fault containment holds on the `get_direction` path —
a missing reader or a reader exception yields `None`, never a fault —
but an accelerometer read failure inside `update()` propagates
unchanged to the caller (and only a successful read advances the
filtered state). -/
theorem get_direction_contains_faults_update_propagates :
    (∀ (e : Unit) (filt : V3), update_accel (Except.error e) filt = Except.error e) ∧
    (∀ (raw filt : V3), update_accel (Except.ok raw) filt =
      Except.ok (updateFiltered filt raw)) ∧
    (∀ e : Unit, get_direction (some (Except.error e)) = none) ∧
    get_direction none = none ∧
    (∀ d : Option String, get_direction (some (Except.ok d)) = d) :=
  ⟨fun _ _ => rfl, fun _ _ => rfl, fun _ => rfl, rfl, fun _ => rfl⟩

/-! ## navigate_choice -/

/-- Python `int(...)` on a rational: truncation toward zero. -/
def pyInt (q : ℚ) : ℤ :=
  if 0 ≤ q then ⌊q⌋ else -⌊-q⌋

/-- One iteration of the `navigate_choice` loop: the three debounced
fell edges and the monotonic clock. -/
structure NavTick where
  leftFell : Bool
  rightFell : Bool
  encoderFell : Bool
  t : ℚ
deriving DecidableEq, Repr

/-- One `display_callback` invocation: the tick that made it (`none`
for the initial pre-loop call), the index whose choice text was passed,
and the countdown argument. -/
structure NavEntry where
  tick : Option ℕ
  idx : ℤ
  shown : ℚ
deriving DecidableEq, Repr

/-- The mutable state of one `navigate_choice` call, with the callback
invocations logged. -/
structure NavState where
  idx : ℤ
  lastCountdown : ℚ
  log : List NavEntry
deriving DecidableEq, Repr

/-- One loop iteration of `navigate_choice` over `n = len(choices)`:
a left fell edge decrements the index modulo `n` and redraws, a right
fell edge increments it and redraws, an encoder fell edge commits and
returns the current index, then the countdown redraw fires when the
truncated remaining time drops below `last_countdown`, and the
(unguarded) timeout check returns `-1`. -/
def navStep (n : ℕ) (timeout_s start_time : ℚ) (tickNo : ℕ) (s : NavState) (k : NavTick) :
    Option ℤ × NavState :=
  let rem : ℤ := pyInt (timeout_s - (k.t - start_time))
  let s₁ := if k.leftFell then
      (⟨(s.idx - 1) % (n : ℤ), s.lastCountdown,
        s.log ++ [⟨some tickNo, (s.idx - 1) % (n : ℤ), (rem : ℚ)⟩]⟩ : NavState)
    else s
  let s₂ := if k.rightFell then
      (⟨(s₁.idx + 1) % (n : ℤ), s₁.lastCountdown,
        s₁.log ++ [⟨some tickNo, (s₁.idx + 1) % (n : ℤ), (rem : ℚ)⟩]⟩ : NavState)
    else s₁
  if k.encoderFell then (some s₂.idx, s₂)
  else
    let s₃ := if (rem : ℚ) < s₂.lastCountdown then
        (⟨s₂.idx, (rem : ℚ), s₂.log ++ [⟨some tickNo, s₂.idx, (rem : ℚ)⟩]⟩ : NavState)
      else s₂
    if k.t - start_time > timeout_s then (some (-1), s₃)
    else (none, s₃)

/-- The `while True` loop of `navigate_choice`. -/
def navLoop (n : ℕ) (timeout_s start_time : ℚ) :
    List NavTick → ℕ → NavState → Option ℤ × NavState
  | [], _, s => (none, s)
  | k :: rest, tickNo, s =>
    let p := navStep n timeout_s start_time tickNo s k
    match p.1 with
    | some r => (some r, p.2)
    | none => navLoop n timeout_s start_time rest (tickNo + 1) p.2

/-- `InputManager.navigate_choice` over `n = len(choices)`: the index
starts at `0` and `display_callback(choices[0], timeout_s)` is invoked
before the loop. -/
def navigate_choice (n : ℕ) (timeout_s start_time : ℚ) (trace : List NavTick) :
    Option ℤ × NavState :=
  navLoop n timeout_s start_time trace 0 ⟨0, timeout_s, [⟨none, 0, timeout_s⟩]⟩

/-- The state of a `navigate_choice` run after its first `m` ticks. -/
def navStateAfter (n : ℕ) (timeout_s start_time : ℚ) (trace : List NavTick) (m : ℕ) :
    NavState :=
  (navLoop n timeout_s start_time (trace.take m) 0 ⟨0, timeout_s, [⟨none, 0, timeout_s⟩]⟩).2

/-- The display discipline asserted by the claim, in its own words:
every callback invocation is the initial one, or happens on a tick
across which the current index changed, or on a tick across which the
visible integer countdown value decreased. -/
def navDisplayOnlyOnChanges (n : ℕ) (timeout_s start_time : ℚ)
    (trace : List NavTick) : Prop :=
  ∀ e ∈ (navigate_choice n timeout_s start_time trace).2.log,
    e.tick = none ∨
    ∃ m, e.tick = some m ∧
      ((navStateAfter n timeout_s start_time trace (m + 1)).idx ≠
        (navStateAfter n timeout_s start_time trace m).idx ∨
       (navStateAfter n timeout_s start_time trace (m + 1)).lastCountdown <
        (navStateAfter n timeout_s start_time trace m).lastCountdown)

/-! ### Lemmas for C6 -/

theorem navStep_idx (n : ℕ) (timeout_s start_time : ℚ) (tickNo : ℕ) (s : NavState)
    (k : NavTick) :
    (navStep n timeout_s start_time tickNo s k).2.idx =
      (if k.rightFell then
        ((if k.leftFell then (s.idx - 1) % (n : ℤ) else s.idx) + 1) % (n : ℤ)
       else if k.leftFell then (s.idx - 1) % (n : ℤ) else s.idx) := by
  simp only [navStep]
  cases hl : k.leftFell <;> cases hr : k.rightFell <;> cases he : k.encoderFell <;>
    simp <;> split_ifs <;> rfl

theorem navStep_commit (n : ℕ) (timeout_s start_time : ℚ) (tickNo : ℕ) (s : NavState)
    (k : NavTick) (he : k.encoderFell = true) :
    (navStep n timeout_s start_time tickNo s k).1 =
      some ((navStep n timeout_s start_time tickNo s k).2.idx) := by
  simp only [navStep, he]
  cases hl : k.leftFell <;> cases hr : k.rightFell <;> simp

theorem navStep_display_occasion (n : ℕ) (timeout_s start_time : ℚ) (tickNo : ℕ)
    (s : NavState) (k : NavTick)
    (h : (navStep n timeout_s start_time tickNo s k).2.log ≠ s.log) :
    k.leftFell = true ∨ k.rightFell = true ∨
      (navStep n timeout_s start_time tickNo s k).2.lastCountdown < s.lastCountdown := by
  by_cases hl : k.leftFell = true
  · exact Or.inl hl
  · by_cases hr : k.rightFell = true
    · exact Or.inr (Or.inl hr)
    · rw [Bool.not_eq_true] at hl hr
      simp only [navStep, hl, hr, Bool.false_eq_true, if_false] at h ⊢
      by_cases he : k.encoderFell = true
      · rw [he] at h
        simp at h
      · rw [Bool.not_eq_true] at he
        rw [he] at h ⊢
        simp only [Bool.false_eq_true, if_false] at h ⊢
        by_cases hcd : ((pyInt (timeout_s - (k.t - start_time)) : ℤ) : ℚ) < s.lastCountdown
        · rw [if_pos hcd] at h ⊢
          by_cases hto : k.t - start_time > timeout_s
          · rw [if_pos hto]
            exact Or.inr (Or.inr hcd)
          · rw [if_neg hto]
            exact Or.inr (Or.inr hcd)
        · rw [if_neg hcd] at h
          by_cases hto : k.t - start_time > timeout_s
          · rw [if_pos hto] at h
            simp at h
          · rw [if_neg hto] at h
            simp at h

theorem navLoop_timeout (n : ℕ) (timeout_s start_time : ℚ) :
    ∀ (trace : List NavTick) (tickNo : ℕ) (s : NavState),
      (∀ k ∈ trace, k.encoderFell = false) →
      (∃ k ∈ trace, k.t - start_time > timeout_s) →
      (navLoop n timeout_s start_time trace tickNo s).1 = some (-1)
  | [], tickNo, s => by
    rintro - ⟨k, hk, -⟩
    exact absurd hk (List.not_mem_nil k)
  | k :: rest, tickNo, s => by
    rintro hef ⟨j, hj, hjto⟩
    have hke : k.encoderFell = false := hef k (List.mem_cons_self k rest)
    rw [navLoop]
    by_cases hto : k.t - start_time > timeout_s
    · have h1 : (navStep n timeout_s start_time tickNo s k).1 = some (-1) := by
        simp only [navStep, hke, Bool.false_eq_true, if_false]
        split_ifs <;> simp_all
      rw [h1]
    · have h1 : (navStep n timeout_s start_time tickNo s k).1 = none := by
        simp only [navStep, hke, Bool.false_eq_true, if_false]
        split_ifs <;> simp_all
      rw [h1]
      refine navLoop_timeout n timeout_s start_time rest (tickNo + 1) _
        (fun x hx => hef x (List.mem_cons_of_mem k hx)) ⟨j, ?_, hjto⟩
      rcases List.mem_cons.mp hj with rfl | hjr
      · exact absurd hjto hto
      · exact hjr

/-! ### Claim C6: counterexample and amended theorem -/

/-- C6 counterexample: with the single-choice list (`n = 1`), a
5-second timeout and a left press at `t = 1.5` (after the visible
countdown already settled at `3` at `t = 1.2`), the press redraws the
display although the index stays `0` (`(0-1) % 1 = 0`) and the visible
countdown does not change — so the claimed display discipline is false
as stated. -/
theorem navigate_choice_display_cex :
    ¬ navDisplayOnlyOnChanges 1 5 0
      [⟨false, false, false, 6/5⟩, ⟨true, false, false, 3/2⟩] := by
  intro h
  have hrun : (navigate_choice 1 5 0
      [⟨false, false, false, 6/5⟩, ⟨true, false, false, 3/2⟩]).2.log =
      [⟨none, 0, 5⟩, ⟨some 0, 0, 3⟩, ⟨some 1, 0, 3⟩] := by
    norm_num [navigate_choice, navLoop, navStep, pyInt]
  have hmem : (⟨some 1, 0, 3⟩ : NavEntry) ∈ (navigate_choice 1 5 0
      [⟨false, false, false, 6/5⟩, ⟨true, false, false, 3/2⟩]).2.log := by
    rw [hrun]
    simp
  rcases h _ hmem with hnone | ⟨m, hm, hdisj⟩
  · exact Option.noConfusion hnone
  · have hm1 : m = 1 := (Option.some.inj hm).symm
    subst hm1
    have h1 : navStateAfter 1 5 0
        [⟨false, false, false, 6/5⟩, ⟨true, false, false, 3/2⟩] 1 =
        ⟨0, 3, [⟨none, 0, 5⟩, ⟨some 0, 0, 3⟩]⟩ := by
      norm_num [navStateAfter, navLoop, navStep, pyInt]
    have h2 : navStateAfter 1 5 0
        [⟨false, false, false, 6/5⟩, ⟨true, false, false, 3/2⟩] 2 =
        ⟨0, 3, [⟨none, 0, 5⟩, ⟨some 0, 0, 3⟩, ⟨some 1, 0, 3⟩]⟩ := by
      norm_num [navStateAfter, navLoop, navStep, pyInt]
    rw [h1, h2] at hdisj
    rcases hdisj with hidx | hcd
    · exact hidx rfl
    · exact absurd hcd (by norm_num)

/-- C6 (amended): `navigate_choice` starts at index 0 with the initial
callback showing `choices[0]` and the raw timeout; a left fell edge
decrements and a right fell edge increments the index modulo
`len(choices)` (both edges in one tick compose); an encoder fell edge
commits and returns the current index; the display callback is invoked
during a tick only if a left/right fell edge occurred (which changes
the index whenever `len(choices) ≥ 2`) or the visible integer countdown
value decreased; if the timeout elapses with no commit the call returns
`-1`; and on the spec's example run (right, then left, then encoder
press) the call returns index `0`. -/
theorem navigate_choice_protocol :
    (∀ (n : ℕ) (timeout_s start_time : ℚ),
      navigate_choice n timeout_s start_time [] =
        (none, ⟨0, timeout_s, [⟨none, 0, timeout_s⟩]⟩)) ∧
    (∀ (n : ℕ) (timeout_s start_time : ℚ) (tickNo : ℕ) (s : NavState) (k : NavTick),
      (navStep n timeout_s start_time tickNo s k).2.idx =
        (if k.rightFell then
          ((if k.leftFell then (s.idx - 1) % (n : ℤ) else s.idx) + 1) % (n : ℤ)
         else if k.leftFell then (s.idx - 1) % (n : ℤ) else s.idx)) ∧
    (∀ (n : ℕ) (timeout_s start_time : ℚ) (tickNo : ℕ) (s : NavState) (k : NavTick),
      k.encoderFell = true →
      (navStep n timeout_s start_time tickNo s k).1 =
        some ((navStep n timeout_s start_time tickNo s k).2.idx)) ∧
    (∀ (n : ℕ) (timeout_s start_time : ℚ) (tickNo : ℕ) (s : NavState) (k : NavTick),
      (navStep n timeout_s start_time tickNo s k).2.log ≠ s.log →
      k.leftFell = true ∨ k.rightFell = true ∨
        (navStep n timeout_s start_time tickNo s k).2.lastCountdown < s.lastCountdown) ∧
    (∀ (n : ℕ) (timeout_s start_time : ℚ) (trace : List NavTick),
      (∀ k ∈ trace, k.encoderFell = false) →
      (∃ k ∈ trace, k.t - start_time > timeout_s) →
      (navigate_choice n timeout_s start_time trace).1 = some (-1)) ∧
    (navigate_choice 3 5 0
      [⟨false, true, false, 1/10⟩, ⟨true, false, false, 2/10⟩,
        ⟨false, false, true, 3/10⟩]).1 = some 0 := by
  refine ⟨fun n timeout_s start_time => rfl, navStep_idx, navStep_commit,
    navStep_display_occasion, ?_, ?_⟩
  · intro n timeout_s start_time trace hef hto
    exact navLoop_timeout n timeout_s start_time trace 0 _ hef hto
  · norm_num [navigate_choice, navLoop, navStep, pyInt]

/-- Witness for C6: a run with no encoder press whose single tick lies
past the 5-second timeout returns `-1`. -/
theorem navigate_choice_protocol_witness :
    (navigate_choice 3 5 0 [⟨false, false, false, 6⟩]).1 = some (-1) := by
  refine navigate_choice_protocol.2.2.2.2.1 3 5 0 [⟨false, false, false, 6⟩] ?_ ?_
  · intro k hk
    rcases List.mem_singleton.mp hk with rfl
    rfl
  · exact ⟨⟨false, false, false, 6⟩, List.mem_singleton.mpr rfl, by norm_num⟩

end InputCore
